import Mathlib

/-!
# runvc.c: running a 16-bit guest through LDT segments

A shallow embedding of `runvc.c` (karcherm/proof16): the selector arithmetic,
the page rounding of the low-memory allocator, the layout of
`struct trampoline_data`, the descriptors and the trampoline area built by
`make_trampoline`, the stack relocation `switch_stack_`, the guest patches of
`main`, and the two hand-assembled stubs `to16_trampoline` and
`from16_trampoline`, run on a small model of the 16-bit x86 instructions they
are made of.
-/

namespace Runvc

/-! ## Selectors (runvc.c lines 10-20) -/

def CODE_INDEX : Nat := 3
def DATA_INDEX : Nat := 4
def SCREEN_INDEX : Nat := 5
def TRAMPOLINE_CODE_INDEX : Nat := 6
def TRAMPOLINE_DATA_INDEX : Nat := 7

def IS_LDT : Nat := 4
def INDEX_MULTIPLIER : Nat := 8

/-- The macro `LDTSEL_L3(idx)`: a level-3 LDT selector for an LDT index. -/
def LDTSEL_L3 (idx : Nat) : Nat := idx * INDEX_MULTIPLIER + IS_LDT + 3

/-! ## Page rounding (runvc.c lines 28-31) -/

/-- The function `roundup_page`: `(size + 0xFFF) & ~(size_t)0xFFF`, where
`bits` is the width of `size_t` (64 under `__LP64__`, 32 otherwise). The sum
wraps modulo `2 ^ bits`, and `~(size_t)0xFFF` is the all-ones word with the
low twelve bits flipped. -/
def roundup_page (bits size : Nat) : Nat :=
  ((size + 0xFFF) % 2 ^ bits) &&& ((2 ^ bits - 1) ^^^ 0xFFF)

/-! ## The context block `struct trampoline_data` (runvc.c lines 144-149) -/

/-- The members of `struct trampoline_data`, in declaration order. -/
inductive TField
  | r_di | r_si | r_bp | r_dummy_sp | r_bx | r_dx | r_cx | r_ax
  | r_es | r_ss | r_sp | r_flags
  | r_cs | r_ip | r_ds
  | reserved
  deriving DecidableEq, Repr

/-- One member of a C structure: its name, the size of one element and the
number of elements (1 for a scalar, the length for an array). -/
structure Member where
  name : TField
  elemSize : Nat
  count : Nat
  deriving Repr

/-- The declaration of `struct trampoline_data`: fifteen `uint16_t` scalars
followed by `uint16_t reserved[16]`. -/
def trampoline_data : List Member :=
  [ ⟨.r_di, 2, 1⟩, ⟨.r_si, 2, 1⟩, ⟨.r_bp, 2, 1⟩, ⟨.r_dummy_sp, 2, 1⟩,
    ⟨.r_bx, 2, 1⟩, ⟨.r_dx, 2, 1⟩, ⟨.r_cx, 2, 1⟩, ⟨.r_ax, 2, 1⟩,
    ⟨.r_es, 2, 1⟩, ⟨.r_ss, 2, 1⟩, ⟨.r_sp, 2, 1⟩, ⟨.r_flags, 2, 1⟩,
    ⟨.r_cs, 2, 1⟩, ⟨.r_ip, 2, 1⟩, ⟨.r_ds, 2, 1⟩,
    ⟨.reserved, 2, 16⟩ ]

/-- Round `n` up to a multiple of the alignment `a`. -/
def alignUp (n a : Nat) : Nat := (n + a - 1) / a * a

/-- The C layout of a member list starting at byte offset `at0`: every member
is placed at the next offset aligned to its element size. The result lists
each member with its offset and its size in bytes. -/
def layoutFrom : Nat → List Member → List (TField × Nat × Nat)
  | _, [] => []
  | at0, m :: ms =>
    let off := alignUp at0 m.elemSize
    (m.name, off, m.elemSize * m.count) :: layoutFrom (off + m.elemSize * m.count) ms

/-- The layout of a structure. -/
def layout (ms : List Member) : List (TField × Nat × Nat) := layoutFrom 0 ms

/-- The macro `offsetof` on a laid-out structure. -/
def offsetof (ms : List Member) (f : TField) : Option Nat :=
  ((layout ms).find? (fun e => e.1 = f)).map (fun e => e.2.1)

/-- The end of the last member of a layout. -/
def layoutEnd : List (TField × Nat × Nat) → Nat
  | [] => 0
  | [e] => e.2.1 + e.2.2
  | _ :: es => layoutEnd es

/-- The operator `sizeof` on a structure: the end of the last member rounded
up to the largest element size. -/
def sizeof (ms : List Member) : Nat :=
  alignUp (layoutEnd (layout ms)) (ms.foldl (fun a m => max a m.elemSize) 1)

/-- The member that owns the byte at offset `o`, if any. -/
def memberAt (ms : List Member) (o : Nat) : Option TField :=
  ((layout ms).find? (fun e => e.2.1 ≤ o ∧ o < e.2.1 + e.2.2)).map (fun e => e.1)

/-! ## Descriptors and the trampoline area (runvc.c lines 220-258) -/

/-- The fields of `struct user_desc` that the program sets. -/
structure user_desc where
  entry_number : Nat
  base_addr : Nat
  limit : Nat
  seg_32bit : Nat
  contents : Nat
  read_exec_only : Nat
  limit_in_pages : Nat
  seg_not_present : Nat
  useable : Nat
  deriving DecidableEq, Repr

/-- The largest offset a descriptor makes addressable, as the processor reads
the limit field of an expand-up segment: the limit itself with byte
granularity, `limit * 4096 + 4095` with page granularity. -/
def user_desc.lastOffset (d : user_desc) : Nat :=
  if d.limit_in_pages = 0 then d.limit else d.limit * 4096 + 4095

/-- Whether offset `o` is inside the segment a descriptor describes. -/
def user_desc.addressable (d : user_desc) (o : Nat) : Prop := o ≤ d.lastOffset

instance (d : user_desc) (o : Nat) : Decidable (d.addressable o) := by
  unfold user_desc.addressable; infer_instance

/-- Byte memory: an address holds a byte. -/
abbrev Mem := Nat → Nat

/-- The library function `memcpy` from a constant byte array: the bytes of
`src` are stored from `dst` upward. -/
def memcpy (m : Mem) (dst : Nat) (src : List Nat) : Mem :=
  fun a => if dst ≤ a ∧ a < dst + src.length then src.getD (a - dst) 0 else m a

/-- The library function `memset`. -/
def memset (m : Mem) (dst : Nat) (c : Nat) (n : Nat) : Mem :=
  fun a => if dst ≤ a ∧ a < dst + n then c % 256 else m a

/-- A store of a `uint8_t` through a pointer. -/
def store8 (m : Mem) (a v : Nat) : Mem :=
  fun x => if x = a then v % 256 else m x

/-- A store of a little-endian `uint16_t` through a pointer. -/
def store16 (m : Mem) (a v : Nat) : Mem :=
  store8 (store8 m a (v % 256)) (a + 1) (v / 256 % 256)

/-- The array `to16_trampoline` (runvc.c lines 167-193). -/
def to16_trampoline : List Nat :=
  [ 0x66, 0x60,
    0x06,
    0x1e,
    0x68, LDTSEL_L3 TRAMPOLINE_DATA_INDEX, 0,
    0x1f,
    0x66, 0x89, 0x26, 0x20, 0x00,
    0x8c, 0x16, 0x24, 0x00,
    0x1e, 0x17,
    0x33, 0xE4,
    0x61,
    0x07,
    0x17,
    0x8b, 0x26, 0x14, 0x00,
    0xff, 0x36, 0x16, 0x00,
    0xff, 0x36, 0x18, 0x00,
    0xff, 0x36, 0x1A, 0x00,
    0x8e, 0x1e, 0x1C, 0x00,
    0xcf ]

/-- The array `from16_trampoline` (runvc.c lines 195-218). -/
def from16_trampoline : List Nat :=
  [ 0x9C,
    0x1e,
    0x68, LDTSEL_L3 TRAMPOLINE_DATA_INDEX, 0,
    0x1f,
    0x8f, 0x06, 0x1C, 0x00,
    0x8f, 0x06, 0x16, 0x00,
    0x8f, 0x06, 0x1A, 0x00,
    0x8f, 0x06, 0x18, 0x00,
    0x89, 0x26, 0x14, 0x00,
    0x8C, 0x16, 0x12, 0x00,
    0x1e, 0x17,
    0xBC, 0x12, 0x00,
    0x06,
    0x60,
    0x66, 0x0f, 0xb2, 0x26, 0x20, 0x00,
    0x1f,
    0x07,
    0x66, 0x61,
    0x66, 0xcb ]

def FROM16_OFS : Nat := 0x00
def TO16_OFS : Nat := 0x80
def DATA_OFS : Nat := 0x100

/-- What `make_trampoline` leaves behind: the memory, the two descriptors it
hands to `write_ldt` (in call order) and the global `context16`. -/
structure Trampoline where
  mem : Mem
  code_desc : user_desc
  data_desc : user_desc
  context16 : Nat

/-- The function `make_trampoline`, given the address `trampoline_area` that
`map32(0x200, 1)` returned. The second descriptor is the first one with
`entry_number`, `limit`, `base_addr` and `contents` reassigned; `base_addr`
is a 32-bit field. -/
def make_trampoline (trampoline_area : Nat) (m : Mem) : Trampoline :=
  let m1 := memcpy m (trampoline_area + FROM16_OFS) from16_trampoline
  let m2 := memcpy m1 (trampoline_area + TO16_OFS) to16_trampoline
  let my_desc : user_desc :=
    { entry_number := TRAMPOLINE_CODE_INDEX
      base_addr := trampoline_area % 2 ^ 32
      limit := 0x100
      seg_32bit := 0
      contents := 2
      read_exec_only := 0
      limit_in_pages := 0
      seg_not_present := 0
      useable := 1 }
  let context16 := trampoline_area + DATA_OFS
  let my_desc2 : user_desc :=
    { my_desc with
      entry_number := TRAMPOLINE_DATA_INDEX
      limit := sizeof trampoline_data
      base_addr := (my_desc.base_addr + DATA_OFS) % 2 ^ 32
      contents := 0 }
  { mem := m2, code_desc := my_desc, data_desc := my_desc2, context16 := context16 }

/-- The far pointer `struct fword` of runvc.c lines 55-58. -/
structure fword where
  ofs : Nat
  seg : Nat
  deriving DecidableEq, Repr

/-- The far target that `enter16` hands to `call_trampoline`. -/
def enter16_target : fword := { ofs := TO16_OFS, seg := LDTSEL_L3 TRAMPOLINE_CODE_INDEX }

/-- The descriptor index a selector names (bits 3 and up). -/
def selectorIndex (sel : Nat) : Nat := sel / 8

/-- The linear address of `sel:off` when `d` is the descriptor `sel` names. -/
def linear (d : user_desc) (off : Nat) : Nat := d.base_addr + off


/-! ## The low-memory allocator (runvc.c lines 33-46) -/

def PROT_READ : Nat := 1
def PROT_WRITE : Nat := 2
def PROT_EXEC : Nat := 4
def MAP_PRIVATE : Nat := 0x02
def MAP_ANON : Nat := 0x20
def MAP_32BIT : Nat := 0x40

/-- The value `MAP_FAILED`, `(void *) -1`, that `mmap` returns on failure. -/
def MAP_FAILED : Nat := 2 ^ 64 - 1

/-- How a call ends: it returns a value to its caller, or the process is
ended with an exit status (as `exit(1)` does in `load`). -/
inductive Ends (α : Type)
  | returns (v : α)
  | aborts (status : Nat)

/-- The operating system's answer to `mmap(NULL, length, prot, flags, -1, 0)`:
an address, or `MAP_FAILED`. -/
abbrev Mmap := Nat → Nat → Nat → Nat

/-- The function `map32`: the protection is read and write, plus execute when
`executable` is non-zero, and the result of `mmap` is returned as it is. -/
def map32 (mmap : Mmap) (size executable : Nat) : Ends Nat :=
  let prot := PROT_READ ||| PROT_WRITE
  let prot := if executable ≠ 0 then prot ||| PROT_EXEC else prot
  .returns (mmap (roundup_page 64 size) prot (MAP_ANON ||| MAP_32BIT ||| MAP_PRIVATE))

/-- The function `initmap32`: the address `map32` returned is the destination
of `memcpy` for the first `size` bytes of `src`, and the result. -/
def initmap32 (mmap : Mmap) (m : Mem) (src : List Nat) (size executable : Nat) :
    Ends (Nat × Mem) :=
  match map32 mmap size executable with
  | .aborts status => .aborts status
  | .returns addr => .returns (addr, memcpy m addr (src.take size))

/-- The array `trampoline_code` of `init_call_trampoline` under `__LP64__`
(runvc.c line 65): `lcalll *(%rdi)`, `retq`. -/
def trampoline_code : List Nat := [0xFF, 0x1F, 0xC3]

/-- The function `init_call_trampoline`: the result of `initmap32` becomes
`call_trampoline`. -/
def init_call_trampoline (mmap : Mmap) (m : Mem) : Ends (Nat × Mem) :=
  initmap32 mmap m trampoline_code trampoline_code.length 1

/-! ## Stack relocation (runvc.c lines 72-91, `__LP64__`) -/

/-- The registers `switch_stack_` uses, and memory. -/
structure Regs64 where
  rdi : Nat
  rsi : Nat
  rcx : Nat
  rax : Nat
  rsp : Nat
  rip : Nat
  mem : Mem

/-- A store of one memory cell. -/
def poke (m : Mem) (a v : Nat) : Mem := fun x => if x = a then v else m x

/-- The instruction `rep movsb` with the direction flag clear: `rcx` times,
the byte at `rsi` is copied to `rdi` and both pointers advance by one. -/
def rep_movsb : Nat → Regs64 → Regs64
  | 0, r => { r with rcx := 0 }
  | n + 1, r =>
    rep_movsb n { r with
      mem := poke r.mem r.rdi (r.mem r.rsi)
      rsi := (r.rsi + 1) % 2 ^ 64
      rdi := (r.rdi + 1) % 2 ^ 64
      rcx := n }

/-- A little-endian 64-bit load. -/
def load64 (m : Mem) (a : Nat) : Nat :=
  (List.range 8).foldr (fun i acc => m (a + i) % 256 + 256 * acc) 0

/-- The body of `switch_stack_` up to and including `mov %rax, %rsp`, one
line per instruction; `dummy` is the argument (in `rdi`), `r.rsp` the stack
pointer at entry. -/
def switch_stack_body (dummy : Nat) (r : Regs64) : Regs64 :=
  let r := { r with rdi := dummy }                                -- mov %rdi, %rdi
  let r := { r with rsi := r.rsp }                                -- mov %rsp, %rsi
  let r := { r with rcx := r.rsp }                                -- mov %rsp, %rcx
  let r := { r with rcx := r.rcx &&& 0xFFF }                      -- and $0xFFF, %rcx
  let r := { r with rdi := (r.rdi + r.rcx) % 2 ^ 64 }             -- add %rcx, %rdi
  let r := { r with rdi := (r.rdi + 0xF000) % 2 ^ 64 }            -- add $0xF000, %rdi
  let r := { r with rcx := r.rcx ^^^ 0xFFF }                      -- xor $0xFFF, %rcx
  let r := { r with rcx := (r.rcx + 1) % 2 ^ 64 }                 -- inc %rcx
  let r := { r with rdi := (r.rdi + 2 ^ 64 - r.rcx) % 2 ^ 64 }    -- sub %rcx, %rdi
  let r := { r with rax := r.rdi }                                -- mov %rdi, %rax
  let r := rep_movsb r.rcx r                                      -- rep ; movsb
  { r with rsp := r.rax }                                         -- mov %rax, %rsp

/-- The function `switch_stack_`: the body, then `ret`, which pops the return
address from the new stack. -/
def switch_stack_ (dummy : Nat) (r : Regs64) : Regs64 :=
  let r := switch_stack_body dummy r
  { r with rip := load64 r.mem r.rsp, rsp := (r.rsp + 8) % 2 ^ 64 }

/-! ## The guest patches of `main` (runvc.c lines 301-378) -/

/-- The 19 bytes copied to guest offset 0x30 (runvc.c lines 318-328). -/
def screen_clear_patch : List Nat :=
  [ 0x06,
    0x57,
    0x8E, 0x06, 0x45, 0x75,
    0x33, 0xFF,
    0xB8, 0x20, 0x07,
    0xB1, 0x00, 0x08,
    0xF3, 0xAB,
    0x5F,
    0x07,
    0xC3 ]

/-- The 3 bytes copied to guest offset 0x6A81 (runvc.c line 329). -/
def screen_clear_call : List Nat := [0xE8, 0xAC, 0x95]

def exit_ofs : Nat := 0x2A5A

/-- The patches `main` applies to the guest image at `codebase`, in source
order. -/
def main_patches (codebase : Nat) (m : Mem) : Mem :=
  let DATA_SELECTOR := LDTSEL_L3 DATA_INDEX
  let SCREEN_SELECTOR := SCREEN_INDEX * INDEX_MULTIPLIER + IS_LDT + 3
  let m := memcpy m (codebase + 0x10C) [0x8C, 0xD8]
  let m := memcpy m (codebase + 0x6933) [0xB0, 0x30]
  let m := store16 m (codebase + 0x6944) SCREEN_SELECTOR
  let m := memcpy m (codebase + 0x692E) [0x90, 0x90]
  let m := memcpy m (codebase + 0x30) screen_clear_patch
  let m := memcpy m (codebase + 0x6A81) screen_clear_call
  let m := memset m (codebase + 0x6A84) 0x90 12
  let m := store8 m (codebase + 0x6A4B) 0x90
  let m := memcpy m (codebase + 0x5F87) [0x90, 0x90]
  let m := memcpy m (codebase + 0x5FA1) [0x90, 0x90, 0x90, 0x90, 0x90]
  let m := memcpy m (codebase + 0x6128) [0x90, 0x90, 0x90, 0x90, 0x90]
  let m := memcpy m (codebase + 0x5F8B) [0xB0, 0x00]
  let m := memcpy m (codebase + 0x5FD7) [0xB0, 0x00]
  let m := memcpy m (codebase + 0x5FE9) [0xB0, 0x00]
  let m := memcpy m (codebase + 0x5FE4) [0x33, 0xC0]
  let m := memcpy m (codebase + 0x5FFE) [0x33, 0xC0]
  let m := memcpy m (codebase + 0x611E) [0x90, 0x90]
  let m := memcpy m (codebase + 0x6135) [0x90, 0x90]
  let m := memcpy m (codebase + 0x613F) [0x33, 0xC0]
  let m := store16 m (codebase + 2) (DATA_SELECTOR + 0x758)
  let m := store16 m (codebase + 0x404d) 0x9090
  let m := store8 m (codebase + exit_ofs) 0x9A
  let m := store16 m (codebase + exit_ofs + 1) FROM16_OFS
  let m := store16 m (codebase + exit_ofs + 3) (LDTSEL_L3 TRAMPOLINE_CODE_INDEX)
  m

/-- The bytes `m` holds at `a`, `a + 1`, ..., `a + n - 1`. -/
def fetch (m : Mem) (a : Nat) (n : Nat) : List Nat :=
  (List.range n).map (fun i => m (a + i))

/-! ## The 16-bit x86 instructions of the stubs and of the patches

The stubs are byte arrays: what they do is what the processor does with
them. This section holds the part of the instruction set the arrays use:
the instructions, their encoding in a 16-bit code segment, a decoder for it
and their effect on registers, flags and memory. Protection checks (segment
limits, selector validity) are outside it. -/

/-- The 16-bit general registers, in encoding order 0..7. -/
inductive Reg
  | ax | cx | dx | bx | sp | bp | si | di
  deriving DecidableEq, Repr

/-- The 8-bit registers, in encoding order 0..7. -/
inductive Reg8
  | al | cl | dl | bl | ah | ch | dh | bh
  deriving DecidableEq, Repr

/-- The segment registers, in encoding order 0..3. -/
inductive SReg
  | es | cs | ss | ds
  deriving DecidableEq, Repr

def Reg.code : Reg → Nat
  | .ax => 0 | .cx => 1 | .dx => 2 | .bx => 3 | .sp => 4 | .bp => 5 | .si => 6 | .di => 7

def Reg.ofCode (n : Nat) : Reg :=
  match n % 8 with
  | 0 => .ax | 1 => .cx | 2 => .dx | 3 => .bx | 4 => .sp | 5 => .bp | 6 => .si | _ => .di

def Reg8.code : Reg8 → Nat
  | .al => 0 | .cl => 1 | .dl => 2 | .bl => 3 | .ah => 4 | .ch => 5 | .dh => 6 | .bh => 7

def Reg8.ofCode (n : Nat) : Reg8 :=
  match n % 8 with
  | 0 => .al | 1 => .cl | 2 => .dl | 3 => .bl | 4 => .ah | 5 => .ch | 6 => .dh | _ => .bh

def SReg.code : SReg → Nat
  | .es => 0 | .cs => 1 | .ss => 2 | .ds => 3

def SReg.ofCode (n : Nat) : SReg :=
  match n % 4 with
  | 0 => .es | 1 => .cs | 2 => .ss | _ => .ds

/-- A register-or-memory operand of a ModRM byte, in the two forms the
arrays use: a 16-bit direct address (mod 00, r/m 110) and a register
(mod 11). -/
inductive Operand
  | direct (disp : Nat)
  | reg (r : Reg)
  deriving DecidableEq, Repr

/-- The instructions. `o32` is set when the operand-size byte 0x66 precedes
the opcode, which makes the operand 32 bits wide in a 16-bit code segment. -/
inductive Instr
  | pusha (o32 : Bool)
  | popa (o32 : Bool)
  | pushSeg (s : SReg)
  | popSeg (s : SReg)
  | pushImm (imm : Nat)
  | pushReg (r : Reg)
  | popReg (r : Reg)
  | movRmReg (o32 : Bool) (dst : Operand) (src : Reg)
  | movRegRm (dst : Reg) (src : Operand)
  | movRmSeg (dst : Operand) (src : SReg)
  | movSegRm (dst : SReg) (src : Operand)
  | xorRegRm (dst : Reg) (src : Operand)
  | orReg8Reg8 (dst : Reg8) (src : Reg8)
  | pushRm (src : Operand)
  | popRm (dst : Operand)
  | movRegImm (r : Reg) (imm : Nat)
  | movReg8Imm (r : Reg8) (imm : Nat)
  | lss (o32 : Bool) (dst : Reg) (disp : Nat)
  | iret
  | pushf
  | retf (o32 : Bool)
  | retn
  | stosw (rep : Bool)
  | callFar (ofs : Nat) (seg : Nat)
  | callNear (rel : Nat)
  deriving DecidableEq, Repr

/-- The two bytes of a little-endian 16-bit word. -/
def le16 (v : Nat) : List Nat := [v % 256, v / 256 % 256]

/-- The ModRM byte and displacement of an operand with register field `r`. -/
def encodeRm (r : Nat) : Operand → List Nat
  | .direct disp => (0 * 64 + r * 8 + 6) :: le16 disp
  | .reg rm => [3 * 64 + r * 8 + rm.code]

/-- The operand-size byte, when asked for. -/
def opsize (o32 : Bool) : List Nat := if o32 then [0x66] else []

/-- The encoding of an instruction in a 16-bit code segment. -/
def encode : Instr → List Nat
  | .pusha o32 => opsize o32 ++ [0x60]
  | .popa o32 => opsize o32 ++ [0x61]
  | .pushSeg s => [0x06 + 8 * s.code]
  | .popSeg s => [0x07 + 8 * s.code]
  | .pushImm imm => 0x68 :: le16 imm
  | .pushReg r => [0x50 + r.code]
  | .popReg r => [0x58 + r.code]
  | .movRmReg o32 dst src => opsize o32 ++ 0x89 :: encodeRm src.code dst
  | .movRegRm dst src => 0x8B :: encodeRm dst.code src
  | .movRmSeg dst src => 0x8C :: encodeRm src.code dst
  | .movSegRm dst src => 0x8E :: encodeRm dst.code src
  | .xorRegRm dst src => 0x33 :: encodeRm dst.code src
  | .orReg8Reg8 dst src => [0x08, 3 * 64 + src.code * 8 + dst.code]
  | .pushRm src => 0xFF :: encodeRm 6 src
  | .popRm dst => 0x8F :: encodeRm 0 dst
  | .movRegImm r imm => (0xB8 + r.code) :: le16 imm
  | .movReg8Imm r imm => [0xB0 + r.code, imm % 256]
  | .lss o32 dst disp => opsize o32 ++ 0x0F :: 0xB2 :: encodeRm dst.code (.direct disp)
  | .iret => [0xCF]
  | .pushf => [0x9C]
  | .retf o32 => opsize o32 ++ [0xCB]
  | .retn => [0xC3]
  | .stosw rep => (if rep then [0xF3] else []) ++ [0xAB]
  | .callFar ofs seg => 0x9A :: (le16 ofs ++ le16 seg)
  | .callNear rel => 0xE8 :: le16 rel

/-- The encoding of an instruction sequence. -/
def assemble (is : List Instr) : List Nat := (is.map encode).flatten

/-- The operand a ModRM byte `b` names, with the number of displacement bytes
that follow it. -/
def decodeRm (b : Nat) (rest : List Nat) : Option (Operand × Nat) :=
  if b / 64 = 3 then some (.reg (Reg.ofCode (b % 8)), 0)
  else if b / 64 = 0 ∧ b % 8 = 6 then
    match rest with
    | lo :: hi :: _ => some (.direct (lo + 256 * hi), 2)
    | _ => none
  else none

/-- The instruction at the head of `bs` once the operand-size byte has been
read, with its length (the opcode and what follows it). -/
def decodeOp (o32 : Bool) : List Nat → Option (Instr × Nat)
  | [] => none
  | b :: rest =>
    if b = 0x60 then some (.pusha o32, 1)
    else if b = 0x61 then some (.popa o32, 1)
    else if b = 0xCB then some (.retf o32, 1)
    else if b = 0x89 then
      match rest with
      | mrm :: rest2 =>
        (decodeRm mrm rest2).map (fun p => (.movRmReg o32 p.1 (Reg.ofCode (mrm / 8)), 2 + p.2))
      | [] => none
    else if b = 0x0F then
      match rest with
      | 0xB2 :: mrm :: lo :: hi :: _ =>
        if mrm / 64 = 0 ∧ mrm % 8 = 6 then
          some (.lss o32 (Reg.ofCode (mrm / 8)) (lo + 256 * hi), 5)
        else none
      | _ => none
    else if o32 then none
    else if b = 0x06 ∨ b = 0x0E ∨ b = 0x16 ∨ b = 0x1E then some (.pushSeg (SReg.ofCode (b / 8)), 1)
    else if b = 0x07 ∨ b = 0x17 ∨ b = 0x1F then some (.popSeg (SReg.ofCode (b / 8)), 1)
    else if b = 0x68 then
      match rest with
      | lo :: hi :: _ => some (.pushImm (lo + 256 * hi), 3)
      | _ => none
    else if 0x50 ≤ b ∧ b < 0x58 then some (.pushReg (Reg.ofCode (b - 0x50)), 1)
    else if 0x58 ≤ b ∧ b < 0x60 then some (.popReg (Reg.ofCode (b - 0x58)), 1)
    else if b = 0x8B ∨ b = 0x8C ∨ b = 0x8E ∨ b = 0x33 ∨ b = 0xFF ∨ b = 0x8F then
      match rest with
      | mrm :: rest2 =>
        match decodeRm mrm rest2 with
        | none => none
        | some (rm, n) =>
          if b = 0x8B then some (.movRegRm (Reg.ofCode (mrm / 8)) rm, 2 + n)
          else if b = 0x8C then
            if mrm / 8 % 8 < 4 then some (.movRmSeg rm (SReg.ofCode (mrm / 8)), 2 + n) else none
          else if b = 0x8E then
            if mrm / 8 % 8 < 4 then some (.movSegRm (SReg.ofCode (mrm / 8)) rm, 2 + n) else none
          else if b = 0x33 then some (.xorRegRm (Reg.ofCode (mrm / 8)) rm, 2 + n)
          else if b = 0xFF then
            if mrm / 8 % 8 = 6 then some (.pushRm rm, 2 + n) else none
          else
            if mrm / 8 % 8 = 0 then some (.popRm rm, 2 + n) else none
      | [] => none
    else if b = 0x08 then
      match rest with
      | mrm :: _ =>
        if mrm / 64 = 3 then some (.orReg8Reg8 (Reg8.ofCode mrm) (Reg8.ofCode (mrm / 8)), 2)
        else none
      | [] => none
    else if 0xB8 ≤ b ∧ b < 0xC0 then
      match rest with
      | lo :: hi :: _ => some (.movRegImm (Reg.ofCode (b - 0xB8)) (lo + 256 * hi), 3)
      | _ => none
    else if 0xB0 ≤ b ∧ b < 0xB8 then
      match rest with
      | imm :: _ => some (.movReg8Imm (Reg8.ofCode (b - 0xB0)) imm, 2)
      | [] => none
    else if b = 0xCF then some (.iret, 1)
    else if b = 0x9C then some (.pushf, 1)
    else if b = 0xC3 then some (.retn, 1)
    else if b = 0xAB then some (.stosw false, 1)
    else if b = 0x9A then
      match rest with
      | ol :: oh :: sl :: sh :: _ => some (.callFar (ol + 256 * oh) (sl + 256 * sh), 5)
      | _ => none
    else if b = 0xE8 then
      match rest with
      | lo :: hi :: _ => some (.callNear (lo + 256 * hi), 3)
      | _ => none
    else none

/-- The instruction at the head of `bs`, with its length in bytes: an
operand-size byte 0x66 or a repeat byte 0xF3 may precede the opcode. -/
def decode : List Nat → Option (Instr × Nat)
  | [] => none
  | b :: rest =>
    if b = 0x66 then (decodeOp true rest).map (fun p => (p.1, p.2 + 1))
    else if b = 0xF3 then
      match rest with
      | 0xAB :: _ => some (.stosw true, 2)
      | _ => none
    else decodeOp false (b :: rest)

/-- The instructions of a byte sequence, each with its length; `none` when a
byte is met that starts no instruction of the model. -/
def disassemble : Nat → List Nat → Option (List (Instr × Nat))
  | _, [] => some []
  | 0, _ :: _ => none
  | fuel + 1, b :: rest =>
    match decode (b :: rest) with
    | none => none
    | some (i, n) =>
      if n = 0 then none
      else (disassemble fuel ((b :: rest).drop n)).map (fun is => (i, n) :: is)

/-! ## Processor state and the effect of the instructions -/

/-- The flags of the low word of EFLAGS. -/
structure Flags where
  cf : Bool
  pf : Bool
  af : Bool
  zf : Bool
  sf : Bool
  tf : Bool
  intf : Bool
  df : Bool
  ovf : Bool
  iopl : Nat
  nt : Bool
  deriving DecidableEq, Repr

/-- Bit `i` of a word. -/
def bitOf (v i : Nat) : Bool := v / 2 ^ i % 2 = 1

/-- The 16-bit image of the flags that `pushf` stores: bit 1 is always set,
bits 3, 5 and 15 are always clear. -/
def Flags.image (f : Flags) : Nat :=
  f.cf.toNat + 2 + 4 * f.pf.toNat + 16 * f.af.toNat + 64 * f.zf.toNat + 128 * f.sf.toNat
    + 256 * f.tf.toNat + 512 * f.intf.toNat + 1024 * f.df.toNat + 2048 * f.ovf.toNat
    + 4096 * (f.iopl % 4) + 16384 * f.nt.toNat

/-- The flags after `iret` (or `popf`) loaded the 16-bit image `img` at
privilege level 3, where all selectors `LDTSEL_L3` run: the I/O privilege
level is kept, and the interrupt flag is loaded only when the I/O privilege
level is 3. -/
def Flags.load (cur : Flags) (img : Nat) : Flags :=
  { cf := bitOf img 0
    pf := bitOf img 2
    af := bitOf img 4
    zf := bitOf img 6
    sf := bitOf img 7
    tf := bitOf img 8
    intf := if 3 ≤ cur.iopl % 4 then bitOf img 9 else cur.intf
    df := bitOf img 10
    ovf := bitOf img 11
    iopl := cur.iopl
    nt := bitOf img 14 }

/-- Whether the low byte of `v` has an even number of set bits. -/
def evenParity (v : Nat) : Bool :=
  ((List.range 8).countP (fun i => bitOf v i)) % 2 = 0

/-- The flags after a logical instruction (`xor`, `or`) with result `res` of
`bits` bits: carry and overflow are cleared, zero, sign and parity follow the
result. The auxiliary flag, which the processor leaves undefined, is kept. -/
def Flags.logic (f : Flags) (res bits : Nat) : Flags :=
  { f with
    cf := false
    ovf := false
    zf := res = 0
    sf := bitOf res (bits - 1)
    pf := evenParity res }

/-- The processor: the 32-bit general registers, the segment registers, the
flags, the instruction pointer and memory. -/
structure Cpu where
  eax : Nat
  ecx : Nat
  edx : Nat
  ebx : Nat
  esp : Nat
  ebp : Nat
  esi : Nat
  edi : Nat
  es : Nat
  cs : Nat
  ss : Nat
  ds : Nat
  flags : Flags
  ip : Nat
  mem : Mem

/-- What the descriptor tables say of a selector: the base of its segment,
and whether a stack in it is addressed with ESP (a 32-bit segment) or with
SP. -/
structure Segs where
  base : Nat → Nat
  big : Nat → Bool

/-- A little-endian 16-bit load. -/
def load16 (m : Mem) (a : Nat) : Nat := m a % 256 + 256 * (m (a + 1) % 256)

/-- A little-endian 32-bit load. -/
def load32 (m : Mem) (a : Nat) : Nat := load16 m a + 65536 * load16 m (a + 2)

/-- A little-endian 32-bit store. -/
def store32 (m : Mem) (a v : Nat) : Mem :=
  store16 (store16 m a (v % 65536)) (a + 2) (v / 65536 % 65536)

/-- A 16-bit value in the low half of a 32-bit register. -/
def setLow16 (old v : Nat) : Nat := old / 65536 * 65536 + v % 65536

def Cpu.get32 (c : Cpu) : Reg → Nat
  | .ax => c.eax | .cx => c.ecx | .dx => c.edx | .bx => c.ebx
  | .sp => c.esp | .bp => c.ebp | .si => c.esi | .di => c.edi

def Cpu.set32 (c : Cpu) (r : Reg) (v : Nat) : Cpu :=
  match r with
  | .ax => { c with eax := v } | .cx => { c with ecx := v }
  | .dx => { c with edx := v } | .bx => { c with ebx := v }
  | .sp => { c with esp := v } | .bp => { c with ebp := v }
  | .si => { c with esi := v } | .di => { c with edi := v }

def Cpu.get16 (c : Cpu) (r : Reg) : Nat := c.get32 r % 65536

def Cpu.set16 (c : Cpu) (r : Reg) (v : Nat) : Cpu := c.set32 r (setLow16 (c.get32 r) v)

/-- The 16-bit register that holds an 8-bit register, and whether it is the
high byte. -/
def Reg8.within : Reg8 → Reg × Bool
  | .al => (.ax, false) | .cl => (.cx, false) | .dl => (.dx, false) | .bl => (.bx, false)
  | .ah => (.ax, true) | .ch => (.cx, true) | .dh => (.dx, true) | .bh => (.bx, true)

def Cpu.get8 (c : Cpu) (r : Reg8) : Nat :=
  if r.within.2 then c.get16 r.within.1 / 256 % 256 else c.get16 r.within.1 % 256

def Cpu.set8 (c : Cpu) (r : Reg8) (v : Nat) : Cpu :=
  let w := c.get16 r.within.1
  if r.within.2 then c.set16 r.within.1 (v % 256 * 256 + w % 256)
  else c.set16 r.within.1 (w / 256 * 256 + v % 256)

def Cpu.getSeg (c : Cpu) : SReg → Nat
  | .es => c.es | .cs => c.cs | .ss => c.ss | .ds => c.ds

def Cpu.setSeg (c : Cpu) (s : SReg) (v : Nat) : Cpu :=
  match s with
  | .es => { c with es := v } | .cs => { c with cs := v }
  | .ss => { c with ss := v } | .ds => { c with ds := v }

/-- The stack pointer after `n` bytes were pushed: ESP in a 32-bit stack
segment, SP (the high half of ESP is kept) in a 16-bit one. -/
def Cpu.espDown (g : Segs) (c : Cpu) (n : Nat) : Nat :=
  if g.big c.ss then (c.esp + 2 ^ 32 - n) % 2 ^ 32
  else setLow16 c.esp (c.esp % 65536 + 65536 - n)

/-- The stack pointer after `n` bytes were popped. -/
def Cpu.espUp (g : Segs) (c : Cpu) (n : Nat) : Nat :=
  if g.big c.ss then (c.esp + n) % 2 ^ 32
  else setLow16 c.esp (c.esp % 65536 + n)

/-- The linear address of the top of the stack. -/
def Cpu.top (g : Segs) (c : Cpu) : Nat :=
  g.base c.ss + (if g.big c.ss then c.esp else c.esp % 65536)

def push16 (g : Segs) (c : Cpu) (v : Nat) : Cpu :=
  let c1 := { c with esp := c.espDown g 2 }
  { c1 with mem := store16 c1.mem (c1.top g) v }

def push32 (g : Segs) (c : Cpu) (v : Nat) : Cpu :=
  let c1 := { c with esp := c.espDown g 4 }
  { c1 with mem := store32 c1.mem (c1.top g) v }

/-- The 16-bit word on top of the stack, and the state once it is popped. -/
def pop16 (g : Segs) (c : Cpu) : Nat × Cpu :=
  (load16 c.mem (c.top g), { c with esp := c.espUp g 2 })

def pop32 (g : Segs) (c : Cpu) : Nat × Cpu :=
  (load32 c.mem (c.top g), { c with esp := c.espUp g 4 })

/-- The linear address of offset `disp` in the data segment. -/
def Cpu.dsAddr (g : Segs) (c : Cpu) (disp : Nat) : Nat := g.base c.ds + disp

/-- The 16-bit value of an operand. -/
def Cpu.readRm (g : Segs) (c : Cpu) : Operand → Nat
  | .direct disp => load16 c.mem (c.dsAddr g disp)
  | .reg r => c.get16 r

/-- A 16-bit store to an operand. -/
def Cpu.writeRm (g : Segs) (c : Cpu) (o : Operand) (v : Nat) : Cpu :=
  match o with
  | .direct disp => { c with mem := store16 c.mem (c.dsAddr g disp) v }
  | .reg r => c.set16 r v

/-- One `stosw` with a 16-bit address: AX is stored at ES:DI and DI moves by
two, upward when the direction flag is clear. -/
def stosw1 (g : Segs) (c : Cpu) : Cpu :=
  let c1 := { c with mem := store16 c.mem (g.base c.es + c.get16 .di) (c.get16 .ax) }
  c1.set16 .di (if c.flags.df then c.get16 .di + 65536 - 2 else c.get16 .di + 2)

/-- The instruction `rep stosw`, `n` iterations left: CX counts down. -/
def repStosw (g : Segs) : Nat → Cpu → Cpu
  | 0, c => c
  | n + 1, c => repStosw g n ((stosw1 g c).set16 .cx n)

/-- The registers `pusha` stores, first pushed first; `popa` loads them in
the reverse order, that is from ascending addresses DI, SI, BP, (SP), BX, DX,
CX, AX. -/
def pushaOrder : List Reg := [.ax, .cx, .dx, .bx, .sp, .bp, .si, .di]

/-- The effect of one instruction; `c.ip` already addresses the instruction
that follows it. -/
def exec (g : Segs) (i : Instr) (c : Cpu) : Cpu :=
  match i with
  | .pusha false =>
    let t := c.get16 .sp
    pushaOrder.foldl (fun s r => push16 g s (if r = .sp then t else s.get16 r)) c
  | .pusha true =>
    let t := c.get32 .sp
    pushaOrder.foldl (fun s r => push32 g s (if r = .sp then t else s.get32 r)) c
  | .popa false =>
    pushaOrder.reverse.foldl
      (fun s r =>
        let p := pop16 g s
        if r = .sp then p.2 else p.2.set16 r p.1) c
  | .popa true =>
    pushaOrder.reverse.foldl
      (fun s r =>
        let p := pop32 g s
        if r = .sp then p.2 else p.2.set32 r p.1) c
  | .pushSeg s => push16 g c (c.getSeg s)
  | .popSeg s =>
    let p := pop16 g c
    p.2.setSeg s p.1
  | .pushImm imm => push16 g c imm
  | .pushReg r => push16 g c (c.get16 r)
  | .popReg r =>
    let p := pop16 g c
    p.2.set16 r p.1
  | .movRmReg false dst src => c.writeRm g dst (c.get16 src)
  | .movRmReg true dst src =>
    match dst with
    | .direct disp => { c with mem := store32 c.mem (c.dsAddr g disp) (c.get32 src) }
    | .reg r => c.set32 r (c.get32 src)
  | .movRegRm dst src => c.set16 dst (c.readRm g src)
  | .movRmSeg dst src => c.writeRm g dst (c.getSeg src)
  | .movSegRm dst src => c.setSeg dst (c.readRm g src)
  | .xorRegRm dst src =>
    let res := (c.get16 dst) ^^^ (c.readRm g src)
    { c.set16 dst res with flags := c.flags.logic res 16 }
  | .orReg8Reg8 dst src =>
    let res := (c.get8 dst) ||| (c.get8 src)
    { c.set8 dst res with flags := c.flags.logic res 8 }
  | .pushRm src => push16 g c (c.readRm g src)
  | .popRm dst =>
    let p := pop16 g c
    p.2.writeRm g dst p.1
  | .movRegImm r imm => c.set16 r imm
  | .movReg8Imm r imm => c.set8 r imm
  | .lss false dst disp =>
    { c.set16 dst (load16 c.mem (c.dsAddr g disp)) with
      ss := load16 c.mem (c.dsAddr g (disp + 2)) }
  | .lss true dst disp =>
    { c.set32 dst (load32 c.mem (c.dsAddr g disp)) with
      ss := load16 c.mem (c.dsAddr g (disp + 4)) }
  | .iret =>
    let p1 := pop16 g c
    let p2 := pop16 g p1.2
    let p3 := pop16 g p2.2
    { p3.2 with ip := p1.1, cs := p2.1, flags := c.flags.load p3.1 }
  | .pushf => push16 g c c.flags.image
  | .retf false =>
    let p1 := pop16 g c
    let p2 := pop16 g p1.2
    { p2.2 with ip := p1.1, cs := p2.1 }
  | .retf true =>
    let p1 := pop32 g c
    let p2 := pop32 g p1.2
    { p2.2 with ip := p1.1, cs := p2.1 % 65536 }
  | .retn =>
    let p := pop16 g c
    { p.2 with ip := p.1 }
  | .stosw false => stosw1 g c
  | .stosw true => repStosw g (c.get16 .cx) c
  | .callFar ofs seg =>
    let c1 := push16 g c c.cs
    let c2 := push16 g c1 c.ip
    { c2 with cs := seg, ip := ofs }
  | .callNear rel =>
    let c1 := push16 g c c.ip
    { c1 with ip := (c.ip + rel) % 65536 }

/-- One instruction with its length: the instruction pointer moves past it,
then the instruction takes effect. -/
def step (g : Segs) (c : Cpu) (i : Instr × Nat) : Cpu :=
  exec g i.1 { c with ip := c.ip + i.2 }

/-- A straight-line instruction sequence. -/
def run (g : Segs) (is : List (Instr × Nat)) (c : Cpu) : Cpu :=
  is.foldl (step g) c

/-- The effect of a byte array that holds straight-line code; `none` when
the array does not disassemble. -/
def runCode (g : Segs) (code : List Nat) (c : Cpu) : Option Cpu :=
  (disassemble code.length code).map (fun is => run g is c)

/-- The far call to the exit stub that `main` patches into the guest. -/
def exit_call : Instr := .callFar FROM16_OFS (LDTSEL_L3 TRAMPOLINE_CODE_INDEX)

/-- The bridge around a guest of one instruction: the enter stub runs, then
the instruction found at the `CS:IP` the stub transfers to, and when that
instruction has transferred to the exit stub at
`LDTSEL_L3(TRAMPOLINE_CODE_INDEX):FROM16_OFS`, the exit stub. The result is
`none` when the guest instruction does not decode or goes elsewhere, and
when the guest receives the trap flag set: the processor then raises a debug
exception after the guest instruction and the exit stub does not run. -/
def bridge (g : Segs) (c : Cpu) : Option Cpu :=
  match runCode g to16_trampoline c with
  | none => none
  | some c1 =>
    match decode (fetch c1.mem (g.base c1.cs + c1.ip) 6) with
    | none => none
    | some i =>
      let c2 := step g c1 i
      if c1.flags.tf then none
      else if c2.cs = LDTSEL_L3 TRAMPOLINE_CODE_INDEX ∧ c2.ip = FROM16_OFS then
        runCode g from16_trampoline c2
      else none

/-- Two byte ranges `[a, a + n)` and `[b, b + k)` that do not overlap. -/
def apart (a n b k : Nat) : Prop := a + n ≤ b ∨ b + k ≤ a

instance (a n b k : Nat) : Decidable (apart a n b k) := by
  unfold apart; infer_instance

/-- The context block as `main` reads it: the sixteen-bit field at byte
offset `off` of the structure at `context16`. -/
def field (m : Mem) (context16 off : Nat) : Nat := load16 m (context16 + off)

/-! ## Concrete inputs -/

/-- A stack pointer eight bytes into a page, as at entry to a function. -/
def stack_at_entry : Regs64 :=
  { rdi := 0, rsi := 0, rcx := 0, rax := 0, rsp := 0x7FFFFFFFE008, rip := 0,
    mem := fun a => a % 251 }

/-- Descriptor tables as `main` and `make_trampoline` set them up, with the
trampoline area at 0x40000000, the guest image at 0x40010000 and the screen
buffer at 0x40020000: the LDT
segments are 16-bit, the host segments of the GDT are flat and 32-bit. -/
def tables_of_main : Segs where
  base := fun sel =>
    if sel = LDTSEL_L3 TRAMPOLINE_DATA_INDEX then 0x40000100
    else if sel = LDTSEL_L3 TRAMPOLINE_CODE_INDEX then 0x40000000
    else if sel = LDTSEL_L3 CODE_INDEX ∨ sel = LDTSEL_L3 DATA_INDEX then 0x40010000
    else if sel = LDTSEL_L3 SCREEN_INDEX then 0x40020000
    else 0
  big := fun sel => sel / 4 % 2 = 0

/-- The context block as `main` fills it (runvc.c lines 381-386) in zeroed
memory: AX 0x1234, SS 39, SP 0xFFFC, CS 31, IP 0x100, DS 39. -/
def context_of_main : List Nat :=
  [ 0, 0, 0, 0, 0, 0, 0, 0, 0, 0, 0, 0, 0, 0, 0x34, 0x12,
    0, 0, 39, 0, 0xFC, 0xFF, 0, 0, 31, 0, 0x00, 0x01, 39, 0 ]

/-- The host at the far call of `enter16`: flat segments, the stack in low
memory, interrupts enabled, the context block of `main` at 0x40000100, and
at the guest entry 0x100 the far call to the exit stub. -/
def host_at_enter16 : Cpu where
  eax := 0x11111111
  ecx := 0x22222222
  edx := 0x33333333
  ebx := 0x44444444
  esp := 0x4002FF00
  ebp := 0x55555555
  esi := 0x66666666
  edi := 0x77777777
  es := 0x2B
  cs := LDTSEL_L3 TRAMPOLINE_CODE_INDEX
  ss := 0x2B
  ds := 0x2B
  flags :=
    { cf := false, pf := false, af := false, zf := false, sf := false, tf := false,
      intf := true, df := false, ovf := false, iopl := 0, nt := false }
  ip := TO16_OFS
  mem := memcpy (memcpy (fun _ => 0) 0x40000100 context_of_main) (0x40010000 + 0x100)
    (assemble [exit_call])

/-- The guest at the patched near call at offset 0x6A81, with the screen
selector in the guest variable at 0x7545 and a zeroed screen buffer. -/
def guest_at_screen_call : Cpu where
  eax := 0
  ecx := 0x1234
  edx := 0
  ebx := 0
  esp := 0xFFF0
  ebp := 0
  esi := 0
  edi := 0x1234
  es := LDTSEL_L3 DATA_INDEX
  cs := LDTSEL_L3 CODE_INDEX
  ss := LDTSEL_L3 DATA_INDEX
  ds := LDTSEL_L3 DATA_INDEX
  flags :=
    { cf := false, pf := false, af := false, zf := false, sf := false, tf := false,
      intf := true, df := false, ovf := false, iopl := 0, nt := false }
  ip := 0x6A81
  mem := store16 (fun _ => 0) (0x40010000 + 0x7545) (SCREEN_INDEX * INDEX_MULTIPLIER + IS_LDT + 3)

/-- The instruction sequence the comments of runvc.c lines 318-327 name. -/
def screen_clear_comments : List Instr :=
  [ .pushSeg .es,
    .pushReg .di,
    .movSegRm .es (.direct 0x7545),
    .xorRegRm .di (.reg .di),
    .movRegImm .ax 0x720,
    .movRegImm .cx 0x800,
    .stosw true,
    .popReg .di,
    .popSeg .es,
    .retn ]

/-- The general-register slot of the context block that belongs to a
register, by name. -/
def slotOf : Reg → TField
  | .ax => .r_ax | .cx => .r_cx | .dx => .r_dx | .bx => .r_bx
  | .sp => .r_dummy_sp | .bp => .r_bp | .si => .r_si | .di => .r_di

/-! ## Theorems -/

/-- Masking with the complement of 0xFFF clears the low twelve bits. -/
theorem and_not_low12 (bits x : Nat) (hb : 12 ≤ bits) (hx : x < 2 ^ bits) :
    x &&& ((2 ^ bits - 1) ^^^ 0xFFF) = x / 4096 * 4096 := by
  apply Nat.eq_of_testBit_eq
  intro i
  have h4095 : (0xFFF : Nat) = 2 ^ 12 - 1 := by norm_num
  have h4096 : x / 4096 * 4096 = 2 ^ 12 * (x / 2 ^ 12) := by
    rw [Nat.mul_comm]; norm_num
  rw [Nat.testBit_and, Nat.testBit_xor, h4095, Nat.testBit_two_pow_sub_one,
    Nat.testBit_two_pow_sub_one, h4096, Nat.testBit_mul_pow_two, ← Nat.shiftRight_eq_div_pow,
    Nat.testBit_shiftRight]
  by_cases h1 : i < 12
  · have h2 : i < bits := by omega
    have h3 : ¬ (i ≥ 12) := by omega
    simp [h1, h2, h3]
  · have h3 : i ≥ 12 := by omega
    by_cases h2 : i < bits
    · have h5 : 12 + (i - 12) = i := by omega
      simp [h1, h2, h3, h5]
    · have hlt : x < 2 ^ i := lt_of_lt_of_le hx (Nat.pow_le_pow_right (by norm_num) (by omega))
      have h5 : 12 + (i - 12) = i := by omega
      simp [h1, h2, h3, h5, Nat.testBit_lt_two_pow hlt]

/-- Without overflow, `roundup_page` is `(size + 0xFFF) / 4096 * 4096`. -/
theorem roundup_page_eq (bits size : Nat) (hb : 12 ≤ bits) (h : size + 0xFFF < 2 ^ bits) :
    roundup_page bits size = (size + 0xFFF) / 4096 * 4096 := by
  unfold roundup_page
  rw [Nat.mod_eq_of_lt h]
  exact and_not_low12 bits _ hb h

/-- Claim C3. For every descriptor index `idx`, `LDTSEL_L3(idx)` is
`idx * 8 + 4 + 3` (the local-table bit 4 and privilege level 3); in particular
`LDTSEL_L3(3) = 31` and `LDTSEL_L3(7) = 63`. -/
theorem LDTSEL_L3_formula (idx : Nat) :
    LDTSEL_L3 idx = idx * 8 + 4 + 3 ∧ LDTSEL_L3 3 = 31 ∧ LDTSEL_L3 7 = 63 := by
  refine ⟨rfl, rfl, rfl⟩

/-- Claim C7. For every size for which `size + 0xFFF` does not overflow
`size_t` (of `bits` bits, at least 12), `roundup_page(size)` is a multiple of
4096, is at least `size`, and is at most every multiple of 4096 that is at
least `size`; with a 64-bit and with a 32-bit `size_t`, `roundup_page(1) = 4096`,
`roundup_page(4096) = 4096` and `roundup_page(4097) = 8192`. -/
theorem roundup_page_least (bits size : Nat) (hb : 12 ≤ bits) (h : size + 0xFFF < 2 ^ bits) :
    4096 ∣ roundup_page bits size ∧ size ≤ roundup_page bits size ∧
    (∀ m, 4096 ∣ m → size ≤ m → roundup_page bits size ≤ m) ∧
    roundup_page 64 1 = 4096 ∧ roundup_page 64 4096 = 4096 ∧ roundup_page 64 4097 = 8192 ∧
    roundup_page 32 1 = 4096 ∧ roundup_page 32 4096 = 4096 ∧ roundup_page 32 4097 = 8192 := by
  rw [roundup_page_eq bits size hb h]
  refine ⟨Nat.dvd_mul_left _ _, by omega, ?_, by decide, by decide, by decide, by decide, by decide, by decide⟩
  rintro m ⟨k, rfl⟩ hle
  omega

/-- Claim C7 at the size 5000 with a 64-bit `size_t`: the result is the least
multiple of 4096 from 5000 on. -/
theorem roundup_page_least_witness :
    (12 ≤ 64 ∧ 5000 + 0xFFF < 2 ^ 64) ∧
    4096 ∣ roundup_page 64 5000 ∧ 5000 ≤ roundup_page 64 5000 ∧
    (∀ m, 4096 ∣ m → 5000 ≤ m → roundup_page 64 5000 ≤ m) :=
  have h := roundup_page_least 64 5000 (by decide) (by decide)
  ⟨by decide, h.1, h.2.1, h.2.2.1⟩


/-- Flipping the low twelve bits of a page offset. -/
theorem xor_low12 (o : Nat) (h : o < 4096) : o ^^^ 0xFFF = 0xFFF - o := by
  apply Nat.eq_of_testBit_eq
  intro i
  have h1 : (0xFFF : Nat) = 2 ^ 12 - 1 := by norm_num
  have h2 : 0xFFF - o = 2 ^ 12 - (o + 1) := by omega
  rw [Nat.testBit_xor, h2, Nat.testBit_two_pow_sub_succ (by simpa using h), h1,
    Nat.testBit_two_pow_sub_one]
  by_cases hi : i < 12
  · simp [hi]
  · have : o < 2 ^ i := lt_of_lt_of_le (by simpa using h) (Nat.pow_le_pow_right (by norm_num) (by omega : 12 ≤ i))
    simp [hi, Nat.testBit_lt_two_pow this]

/-- The copy loop: `n` bytes from `r.rsi` to `r.rdi`. -/
theorem rep_movsb_spec (n : Nat) (r : Regs64)
    (hs : r.rsi + n ≤ 2 ^ 64) (hd : r.rdi + n ≤ 2 ^ 64)
    (hdis : r.rsi + n ≤ r.rdi ∨ r.rdi + n ≤ r.rsi) :
    (∀ k, k < n → (rep_movsb n r).mem (r.rdi + k) = r.mem (r.rsi + k)) ∧
    (∀ x, (x < r.rdi ∨ r.rdi + n ≤ x) → (rep_movsb n r).mem x = r.mem x) ∧
    (rep_movsb n r).rax = r.rax ∧ (rep_movsb n r).rsp = r.rsp ∧ (rep_movsb n r).rip = r.rip := by
  induction n generalizing r with
  | zero => simp [rep_movsb]
  | succ n ih =>
    rcases Nat.eq_zero_or_pos n with hn0 | hnpos
    · subst hn0
      refine ⟨?_, ?_, rfl, rfl, rfl⟩
      · intro k hk
        have : k = 0 := by omega
        subst this
        simp [rep_movsb, poke]
      · intro x hx
        have : x ≠ r.rdi := by omega
        simp [rep_movsb, poke, this]
    have hs1 : (r.rsi + 1) % 2 ^ 64 = r.rsi + 1 := Nat.mod_eq_of_lt (by omega)
    have hd1 : (r.rdi + 1) % 2 ^ 64 = r.rdi + 1 := Nat.mod_eq_of_lt (by omega)
    obtain ⟨ih1, ih2, ih3, ih4, ih5⟩ := ih
      { r with mem := poke r.mem r.rdi (r.mem r.rsi), rsi := (r.rsi + 1) % 2 ^ 64,
               rdi := (r.rdi + 1) % 2 ^ 64, rcx := n }
      (by simp only [hs1]; omega) (by simp only [hd1]; omega) (by simp only [hs1, hd1]; omega)
    simp only [hs1, hd1] at ih1 ih2 ih3 ih4 ih5
    refine ⟨?_, ?_, ?_, ?_, ?_⟩
    · intro k hk
      rw [rep_movsb]
      simp only [hs1, hd1]
      rcases Nat.eq_zero_or_pos k with h0 | hpos
      · subst h0
        rw [ih2 _ (Or.inl (by omega))]
        simp [poke]
      · have := ih1 (k - 1) (by omega)
        have e1 : r.rdi + 1 + (k - 1) = r.rdi + k := by omega
        have e2 : r.rsi + 1 + (k - 1) = r.rsi + k := by omega
        rw [e1, e2] at this
        rw [this]
        have : r.rsi + k ≠ r.rdi := by omega
        simp [poke, this]
    · intro x hx
      rw [rep_movsb]
      simp only [hs1, hd1]
      rw [ih2 x (by omega)]
      have : x ≠ r.rdi := by omega
      simp [poke, this]
    · rw [rep_movsb]; simpa only [hs1, hd1] using ih3
    · rw [rep_movsb]; simpa only [hs1, hd1] using ih4
    · rw [rep_movsb]; simpa only [hs1, hd1] using ih5

/-- The stack pointer the body installs. -/
theorem switch_stack_body_rsp (d : Nat) (r : Regs64) (hs : r.rsp < 2 ^ 64)
    (hd : d + 0x10000 ≤ 2 ^ 64)
    (hdis : r.rsp + (0x1000 - r.rsp % 0x1000) ≤ d ∨ d + 0x10000 ≤ r.rsp) :
    (switch_stack_body d r).rsp = d + 0xE000 + 2 * (r.rsp % 0x1000) ∧
    (∀ k, k < 0x1000 - r.rsp % 0x1000 →
      (switch_stack_body d r).mem (d + 0xE000 + 2 * (r.rsp % 0x1000) + k) = r.mem (r.rsp + k)) ∧
    (∀ x, (x < d ∨ d + 0x10000 ≤ x) → (switch_stack_body d r).mem x = r.mem x) := by
  have hand : r.rsp &&& 0xFFF = r.rsp % 0x1000 := by
    have := Nat.and_pow_two_sub_one_eq_mod r.rsp 12
    norm_num at this
    simpa using this
  have ho : r.rsp % 0x1000 < 0x1000 := Nat.mod_lt _ (by norm_num)
  have hx := xor_low12 (r.rsp % 0x1000) ho
  have hcx : (r.rsp % 0x1000 ^^^ 0xFFF) + 1 = 0x1000 - r.rsp % 0x1000 := by rw [hx]; omega
  have hdi : (((d + r.rsp % 0x1000) % 2 ^ 64 + 0xF000) % 2 ^ 64 + 2 ^ 64
      - (0x1000 - r.rsp % 0x1000)) % 2 ^ 64 = d + 0xE000 + 2 * (r.rsp % 0x1000) := by omega
  have hn : (0x1000 - r.rsp % 0x1000) % 2 ^ 64 = 0x1000 - r.rsp % 0x1000 := by omega
  simp only [switch_stack_body, hand, hcx, hn, hdi]
  obtain ⟨h1, h2, h3, -, -⟩ := rep_movsb_spec (0x1000 - r.rsp % 0x1000)
    { rdi := d + 0xE000 + 2 * (r.rsp % 0x1000), rsi := r.rsp, rcx := 0x1000 - r.rsp % 0x1000,
      rax := d + 0xE000 + 2 * (r.rsp % 0x1000), rsp := r.rsp, rip := r.rip, mem := r.mem }
    (by simp only; omega) (by simp only; omega) (by simp only; omega)
  refine ⟨h3, h1, ?_⟩
  intro x hx
  exact h2 x (by simp only; omega)


theorem fetch_congr (m m2 : Mem) (a n : Nat) (h : ∀ i, i < n → m (a + i) = m2 (a + i)) :
    fetch m a n = fetch m2 a n := by
  unfold fetch
  apply List.map_congr_left
  intro i hi
  exact h i (List.mem_range.mp hi)

theorem fetch_memcpy_same (m : Mem) (a : Nat) (src : List Nat) :
    fetch (memcpy m a src) a src.length = src := by
  apply List.ext_getElem
  · simp [fetch]
  · intro i h1 h2
    simp only [fetch, List.getElem_map, List.getElem_range, memcpy]
    have : a ≤ a + i ∧ a + i < a + src.length := by omega
    simp [this, List.getElem?_eq_getElem h2]

theorem fetch_memcpy_disjoint (m : Mem) (a n dst : Nat) (src : List Nat)
    (h : a + n ≤ dst ∨ dst + src.length ≤ a) :
    fetch (memcpy m dst src) a n = fetch m a n := by
  apply fetch_congr
  intro i hi
  have : ¬ (dst ≤ a + i ∧ a + i < dst + src.length) := by omega
  simp [memcpy, this]

theorem fetch_memset_disjoint (m : Mem) (a n dst c k : Nat)
    (h : a + n ≤ dst ∨ dst + k ≤ a) :
    fetch (memset m dst c k) a n = fetch m a n := by
  apply fetch_congr
  intro i hi
  have : ¬ (dst ≤ a + i ∧ a + i < dst + k) := by omega
  simp [memset, this]

theorem fetch_store8_disjoint (m : Mem) (a n dst v : Nat)
    (h : a + n ≤ dst ∨ dst + 1 ≤ a) :
    fetch (store8 m dst v) a n = fetch m a n := by
  apply fetch_congr
  intro i hi
  have : a + i ≠ dst := by omega
  simp [store8, this]

theorem fetch_store16_disjoint (m : Mem) (a n dst v : Nat)
    (h : a + n ≤ dst ∨ dst + 2 ≤ a) :
    fetch (store16 m dst v) a n = fetch m a n := by
  unfold store16
  rw [fetch_store8_disjoint _ _ _ _ _ (by omega), fetch_store8_disjoint _ _ _ _ _ (by omega)]

/-- Claim C4. For every stack pointer `s = r.rsp` and every 0x10000-byte region
at `d` that is disjoint from the old stack, `switch_stack_` copies the
`n = 0x1000 - s mod 0x1000` bytes at `[s, s + n)`: with `s1` the stack pointer
the body installs, the byte at `s1 + k` after the call is the byte that was at
`s + k` before it, for every `k < n`, and `[s1, s1 + n)` lies inside
`[d, d + 0x10000)`. -/
theorem switch_stack_preserves_content (d : Nat) (r : Regs64)
    (hs : r.rsp < 2 ^ 64) (hd : d + 0x10000 ≤ 2 ^ 64)
    (hdis : r.rsp + (0x1000 - r.rsp % 0x1000) ≤ d ∨ d + 0x10000 ≤ r.rsp) :
    (∀ k, k < 0x1000 - r.rsp % 0x1000 →
      (switch_stack_ d r).mem ((switch_stack_body d r).rsp + k) = r.mem (r.rsp + k)) ∧
    d ≤ (switch_stack_body d r).rsp ∧
    (switch_stack_body d r).rsp + (0x1000 - r.rsp % 0x1000) ≤ d + 0x10000 := by
  obtain ⟨h1, h2, -⟩ := switch_stack_body_rsp d r hs hd hdis
  refine ⟨?_, by omega, by omega⟩
  intro k hk
  rw [h1]
  exact h2 k hk

/-- Claim C4 at a stack pointer eight bytes into a page in high memory and a
region at 0x40000000. -/
theorem switch_stack_preserves_content_witness :
    (stack_at_entry.rsp < 2 ^ 64 ∧ 0x40000000 + 0x10000 ≤ 2 ^ 64 ∧
      (stack_at_entry.rsp + (0x1000 - stack_at_entry.rsp % 0x1000) ≤ 0x40000000 ∨
        0x40000000 + 0x10000 ≤ stack_at_entry.rsp)) ∧
    (∀ k, k < 0x1000 - stack_at_entry.rsp % 0x1000 →
      (switch_stack_ 0x40000000 stack_at_entry).mem
        ((switch_stack_body 0x40000000 stack_at_entry).rsp + k)
        = stack_at_entry.mem (stack_at_entry.rsp + k)) ∧
    0x40000000 ≤ (switch_stack_body 0x40000000 stack_at_entry).rsp ∧
    (switch_stack_body 0x40000000 stack_at_entry).rsp + (0x1000 - stack_at_entry.rsp % 0x1000)
      ≤ 0x40000000 + 0x10000 :=
  ⟨by decide,
   switch_stack_preserves_content 0x40000000 stack_at_entry (by decide) (by decide)
    (by decide)⟩

/-- Claim C8 fails on the code. With the stack pointer 0x7FFFFFFFE008 (offset 8
in its page, 8 modulo 16) and the page-aligned region 0x40000000, the stack
pointer `switch_stack_` installs has offset 16 in its page and is 0 modulo
16: the page offset is added once by `add %rcx, %rdi` and once more by
`sub %rcx, %rdi`. -/
theorem switch_stack_doubles_page_offset :
    stack_at_entry.rsp % 4096 = 8 ∧
    (switch_stack_body 0x40000000 stack_at_entry).rsp % 4096 = 16 ∧
    stack_at_entry.rsp % 16 = 8 ∧
    (switch_stack_body 0x40000000 stack_at_entry).rsp % 16 = 0 := by
  obtain ⟨h1, -, -⟩ := switch_stack_body_rsp 0x40000000 stack_at_entry
    (by decide) (by decide) (by decide)
  rw [h1]
  decide

/-- Claim C6 fails on the code. The trampoline data descriptor has index 7, is
a 16-bit expand-up data segment with byte granularity, and its base is the
low 32 bits of `context16 = area + 0x100`; but its limit field is
`sizeof(struct trampoline_data) = 62`, so that offset 62, one past the last
byte of the structure, is addressable as well: the addressable offsets are
not exactly those of the structure. -/
theorem trampoline_data_limit_one_past (area : Nat) (m : Mem) :
    (make_trampoline area m).data_desc.entry_number = TRAMPOLINE_DATA_INDEX ∧
    (make_trampoline area m).data_desc.seg_32bit = 0 ∧
    (make_trampoline area m).data_desc.contents = 0 ∧
    (make_trampoline area m).data_desc.limit_in_pages = 0 ∧
    (make_trampoline area m).context16 = area + 0x100 ∧
    (make_trampoline area m).data_desc.base_addr = (make_trampoline area m).context16 % 2 ^ 32 ∧
    (make_trampoline area m).data_desc.limit = sizeof trampoline_data ∧
    sizeof trampoline_data = 62 ∧
    (make_trampoline area m).data_desc.addressable (sizeof trampoline_data) ∧
    ¬ (∀ o, (make_trampoline area m).data_desc.addressable o ↔ o < sizeof trampoline_data) := by
  have hs : sizeof trampoline_data = 62 := by decide
  refine ⟨rfl, rfl, rfl, rfl, rfl, ?_, rfl, hs, ?_, ?_⟩
  · simp only [make_trampoline, DATA_OFS]
    omega
  · simp [make_trampoline, user_desc.addressable, user_desc.lastOffset]
  · intro h
    have := (h 62).mp (by simp [make_trampoline, user_desc.addressable, user_desc.lastOffset, hs])
    omega


/-! ### Loads and stores -/

theorem store8_apply_ne (m : Mem) (a v x : Nat) (h : x ≠ a) : store8 m a v x = m x := by
  simp [store8, h]

theorem store16_apply_disj (m : Mem) (a v x : Nat) (h : x < a ∨ a + 2 ≤ x) :
    store16 m a v x = m x := by
  unfold store16
  rw [store8_apply_ne _ _ _ _ (by omega), store8_apply_ne _ _ _ _ (by omega)]

theorem store32_apply_disj (m : Mem) (a v x : Nat) (h : x < a ∨ a + 4 ≤ x) :
    store32 m a v x = m x := by
  unfold store32
  rw [store16_apply_disj _ _ _ _ (by omega), store16_apply_disj _ _ _ _ (by omega)]

theorem load16_lt (m : Mem) (a : Nat) : load16 m a < 65536 := by
  unfold load16
  have h1 := Nat.mod_lt (m a) (by norm_num : 256 > 0)
  have h2 := Nat.mod_lt (m (a + 1)) (by norm_num : 256 > 0)
  omega

theorem load16_store16_eq (m : Mem) (a b v : Nat) (h : a = b) :
    load16 (store16 m a v) b = v % 65536 := by
  subst h
  simp only [load16, store16, store8]
  have h1 : a ≠ a + 1 := by omega
  simp only [h1, if_true, if_false]
  simp
  omega

theorem load16_store16_disj (m : Mem) (a b v : Nat) (h : b + 2 ≤ a ∨ a + 2 ≤ b) :
    load16 (store16 m a v) b = load16 m b := by
  unfold load16
  rw [store16_apply_disj _ _ _ _ (by omega), store16_apply_disj _ _ _ _ (by omega)]

theorem load16_store32_disj (m : Mem) (a b v : Nat) (h : b + 2 ≤ a ∨ a + 4 ≤ b) :
    load16 (store32 m a v) b = load16 m b := by
  unfold load16
  rw [store32_apply_disj _ _ _ _ (by omega), store32_apply_disj _ _ _ _ (by omega)]

theorem load32_store32_eq (m : Mem) (a b v : Nat) (h : a = b) :
    load32 (store32 m a v) b = v % 4294967296 := by
  subst h
  unfold load32 store32
  rw [load16_store16_disj _ _ _ _ (by omega), load16_store16_eq _ _ _ _ rfl,
    load16_store16_eq _ _ _ _ rfl]
  omega

theorem load32_store16_disj (m : Mem) (a b v : Nat) (h : b + 4 ≤ a ∨ a + 2 ≤ b) :
    load32 (store16 m a v) b = load32 m b := by
  unfold load32
  rw [load16_store16_disj _ _ _ _ (by omega), load16_store16_disj _ _ _ _ (by omega)]

theorem load32_store32_disj (m : Mem) (a b v : Nat) (h : b + 4 ≤ a ∨ a + 4 ≤ b) :
    load32 (store32 m a v) b = load32 m b := by
  unfold load32
  rw [load16_store32_disj _ _ _ _ (by omega), load16_store32_disj _ _ _ _ (by omega)]

theorem setLow16_mod (a v : Nat) : setLow16 a v % 65536 = v % 65536 := by
  unfold setLow16; omega

theorem setLow16_setLow16 (a v w : Nat) : setLow16 (setLow16 a v) w = setLow16 a w := by
  unfold setLow16; omega

theorem disassemble_to16 :
    disassemble to16_trampoline.length to16_trampoline = some
      [ (.pusha true, 2), (.pushSeg .es, 1), (.pushSeg .ds, 1), (.pushImm 63, 3),
        (.popSeg .ds, 1), (.movRmReg true (.direct 0x20) .sp, 5),
        (.movRmSeg (.direct 0x24) .ss, 4), (.pushSeg .ds, 1), (.popSeg .ss, 1),
        (.xorRegRm .sp (.reg .sp), 2), (.popa false, 1), (.popSeg .es, 1), (.popSeg .ss, 1),
        (.movRegRm .sp (.direct 0x14), 4), (.pushRm (.direct 0x16), 4),
        (.pushRm (.direct 0x18), 4), (.pushRm (.direct 0x1A), 4),
        (.movSegRm .ds (.direct 0x1C), 4), (.iret, 1) ] := by
  decide

theorem disassemble_from16 :
    disassemble from16_trampoline.length from16_trampoline = some
      [ (.pushf, 1), (.pushSeg .ds, 1), (.pushImm 63, 3), (.popSeg .ds, 1),
        (.popRm (.direct 0x1C), 4), (.popRm (.direct 0x16), 4), (.popRm (.direct 0x1A), 4),
        (.popRm (.direct 0x18), 4), (.movRmReg false (.direct 0x14) .sp, 4),
        (.movRmSeg (.direct 0x12) .ss, 4), (.pushSeg .ds, 1), (.popSeg .ss, 1),
        (.movRegImm .sp 0x12, 3), (.pushSeg .es, 1), (.pusha false, 1),
        (.lss true .sp 0x20, 6), (.popSeg .ds, 1), (.popSeg .es, 1), (.popa true, 2),
        (.retf true, 2) ] := by
  decide


/-! ### The stubs, instruction by instruction -/

theorem mod32_sub (x n : Nat) (h1 : n ≤ x) (h2 : x < 4294967296) :
    (x + 4294967296 - n) % 4294967296 = x - n := by omega

theorem mod32_id (x : Nat) (h : x < 4294967296) : x % 4294967296 = x := by omega

theorem mod16_sub (x n : Nat) (h1 : n ≤ x) (h2 : x < 65536) :
    (x + 65536 - n) % 65536 = x - n := by omega

theorem mod16_id (x : Nat) (h : x < 65536) : x % 65536 = x := by omega

theorem sub_add_lit (x n k : Nat) (h1 : k ≤ n) (h2 : n ≤ x) : x - n + k = x - (n - k) := by
  omega

theorem setLow16_wrap (a x n : Nat) (h : n ≤ x) :
    setLow16 a (x + 65536 - n) = setLow16 a (x - n) := by
  unfold setLow16; omega

theorem load16_mod (m : Mem) (a : Nat) : load16 m a % 65536 = load16 m a :=
  Nat.mod_eq_of_lt (load16_lt m a)

theorem run_cons (g : Segs) (i : Instr × Nat) (is : List (Instr × Nat)) (c : Cpu) :
    run g (i :: is) c = run g is (step g c i) := rfl

theorem run_nil (g : Segs) (c : Cpu) : run g [] c = c := rfl

set_option maxHeartbeats 4000000 in
set_option maxRecDepth 100000 in
/-- The enter stub hands the guest the registers, segments, flags, stack
pointer and instruction pointer of the context block at `tb`. -/
theorem enter_stub_regs (g : Segs) (c : Cpu) (tb : Nat)
    (htb : g.base 63 = tb)
    (hbigH : g.big c.ss = true) (hbigT : g.big 63 = false)
    (hbigG : g.big (load16 c.mem (tb + 18)) = false)
    (hE1 : 38 ≤ c.esp) (hE2 : c.esp < 4294967296)
    (hS : 6 ≤ load16 c.mem (tb + 20))
    (hH : g.base c.ss + c.esp ≤ tb ∨ tb + 62 ≤ g.base c.ss + c.esp - 38)
    (hG : g.base (load16 c.mem (tb + 18)) + load16 c.mem (tb + 20) ≤ tb ∨
      tb + 62 ≤ g.base (load16 c.mem (tb + 18)) + load16 c.mem (tb + 20) - 6) :
    ∃ m1, run g [ (.pusha true, 2), (.pushSeg .es, 1), (.pushSeg .ds, 1), (.pushImm 63, 3),
        (.popSeg .ds, 1), (.movRmReg true (.direct 0x20) .sp, 5),
        (.movRmSeg (.direct 0x24) .ss, 4), (.pushSeg .ds, 1), (.popSeg .ss, 1),
        (.xorRegRm .sp (.reg .sp), 2), (.popa false, 1), (.popSeg .es, 1), (.popSeg .ss, 1),
        (.movRegRm .sp (.direct 0x14), 4), (.pushRm (.direct 0x16), 4),
        (.pushRm (.direct 0x18), 4), (.pushRm (.direct 0x1A), 4),
        (.movSegRm .ds (.direct 0x1C), 4), (.iret, 1) ] c =
      { eax := setLow16 c.eax (load16 c.mem (tb + 14))
        ecx := setLow16 c.ecx (load16 c.mem (tb + 12))
        edx := setLow16 c.edx (load16 c.mem (tb + 10))
        ebx := setLow16 c.ebx (load16 c.mem (tb + 8))
        esp := setLow16 (c.esp - 36) (load16 c.mem (tb + 20))
        ebp := setLow16 c.ebp (load16 c.mem (tb + 4))
        esi := setLow16 c.esi (load16 c.mem (tb + 2))
        edi := setLow16 c.edi (load16 c.mem tb)
        es := load16 c.mem (tb + 16)
        cs := load16 c.mem (tb + 24)
        ss := load16 c.mem (tb + 18)
        ds := load16 c.mem (tb + 28)
        flags := (c.flags.logic 0 16).load (load16 c.mem (tb + 22))
        ip := load16 c.mem (tb + 26)
        mem := m1 } ∧
      ∀ a, (a < g.base c.ss + c.esp - 38 ∨ g.base c.ss + c.esp ≤ a) →
        (a < tb + 32 ∨ tb + 38 ≤ a) →
        (a < g.base (load16 c.mem (tb + 18)) + load16 c.mem (tb + 20) - 6 ∨
          g.base (load16 c.mem (tb + 18)) + load16 c.mem (tb + 20) ≤ a) →
        m1 a = c.mem a := by
  have hS2 := load16_lt c.mem (tb + 20)
  rcases c with ⟨eax, ecx, edx, ebx, esp, ebp, esi, edi, es, cs, ss, ds, flags, ip, mem⟩
  simp only at *
  refine ⟨?w, ?h1, ?h2⟩
  case h1 =>
    iterate 19
      rw [run_cons]
      simp (disch := omega) only [step, exec, push16, push32, pop16, pop32, Cpu.espDown, Cpu.espUp,
        Cpu.top, Cpu.dsAddr, Cpu.readRm, Cpu.writeRm, Cpu.get16, Cpu.set16, Cpu.get32, Cpu.set32,
        Cpu.getSeg, Cpu.setSeg, pushaOrder, List.reverse_cons, List.reverse_nil, List.nil_append,
        List.cons_append, List.foldl_cons, List.foldl_nil,
        hbigH, hbigT, hbigG, htb, if_true, if_false, reduceIte, Nat.reducePow, Nat.reduceAdd,
        Nat.reduceSub, mod32_sub, mod32_id, mod16_sub, mod16_id, sub_add_lit, setLow16_wrap,
        setLow16_mod, setLow16_setLow16, load16_mod,
        load16_store16_eq, load16_store16_disj, load16_store32_disj, load32_store32_eq,
        load32_store16_disj, load32_store32_disj, Nat.xor_self, Nat.sub_sub, Nat.reduceMod,
        Nat.zero_add, Nat.add_zero, Nat.sub_zero, reduceCtorEq, Bool.false_eq_true]
    rw [run_nil]
    exact rfl
  case h2 =>
    intro a ha1 ha2 ha3
    simp (disch := omega) only [store16_apply_disj, store32_apply_disj]


theorem pop16_mem (g : Segs) (c : Cpu) : (pop16 g c).2.mem = c.mem := rfl

theorem pop32_mem (g : Segs) (c : Cpu) : (pop32 g c).2.mem = c.mem := rfl

theorem set32_mem (c : Cpu) (r : Reg) (v : Nat) : (c.set32 r v).mem = c.mem := by
  cases r <;> rfl

theorem set16_mem (c : Cpu) (r : Reg) (v : Nat) : (c.set16 r v).mem = c.mem :=
  set32_mem c r _

theorem setSeg_mem (c : Cpu) (s : SReg) (v : Nat) : (c.setSeg s v).mem = c.mem := by
  cases s <;> rfl

/-- The last five instructions of the exit stub load registers and leave
memory as it is. -/
theorem exit_tail_mem (g : Segs) (c : Cpu) :
    (run g [ (.lss true .sp 0x20, 6), (.popSeg .ds, 1), (.popSeg .es, 1), (.popa true, 2),
        (.retf true, 2) ] c).mem = c.mem := by
  simp only [run, List.foldl_cons, List.foldl_nil, step, exec, pushaOrder, List.reverse_cons,
    List.reverse_nil, List.nil_append, List.cons_append, reduceCtorEq, reduceIte, if_true,
    if_false, set32_mem, set16_mem, setSeg_mem, pop16_mem, pop32_mem]

theorem run_append (g : Segs) (a b : List (Instr × Nat)) (c : Cpu) :
    run g (a ++ b) c = run g b (run g a c) := by
  simp [run, List.foldl_append]

set_option maxHeartbeats 4000000 in
set_option maxRecDepth 100000 in
/-- The exit stub stores the registers, segments, flags and stack pointer it
is entered with, and the far return address on top of the stack, in the
context block at `tb`; the slot at offset 6 receives the value SP has when
`pusha` runs. -/
theorem exit_stub_fields (g : Segs) (c : Cpu) (tb : Nat)
    (htb : g.base 63 = tb) (hbigT : g.big 63 = false)
    (hbigG : g.big c.ss = false)
    (hS1 : 6 ≤ c.esp % 65536) (hS2 : c.esp % 65536 + 4 < 65536)
    (hG : g.base c.ss + c.esp % 65536 + 4 ≤ tb ∨ tb + 62 ≤ g.base c.ss + c.esp % 65536 - 6) :
    ∃ m, (run g [ (.pushf, 1), (.pushSeg .ds, 1), (.pushImm 63, 3), (.popSeg .ds, 1),
        (.popRm (.direct 0x1C), 4), (.popRm (.direct 0x16), 4), (.popRm (.direct 0x1A), 4),
        (.popRm (.direct 0x18), 4), (.movRmReg false (.direct 0x14) .sp, 4),
        (.movRmSeg (.direct 0x12) .ss, 4), (.pushSeg .ds, 1), (.popSeg .ss, 1),
        (.movRegImm .sp 0x12, 3), (.pushSeg .es, 1), (.pusha false, 1),
        (.lss true .sp 0x20, 6), (.popSeg .ds, 1), (.popSeg .es, 1), (.popa true, 2),
        (.retf true, 2) ] c).mem = m ∧
      load16 m tb = c.edi % 65536 ∧ load16 m (tb + 2) = c.esi % 65536 ∧
      load16 m (tb + 4) = c.ebp % 65536 ∧ load16 m (tb + 6) = 16 ∧
      load16 m (tb + 8) = c.ebx % 65536 ∧ load16 m (tb + 10) = c.edx % 65536 ∧
      load16 m (tb + 12) = c.ecx % 65536 ∧ load16 m (tb + 14) = c.eax % 65536 ∧
      load16 m (tb + 16) = c.es % 65536 ∧ load16 m (tb + 18) = c.ss % 65536 ∧
      load16 m (tb + 20) = c.esp % 65536 + 4 ∧ load16 m (tb + 22) = c.flags.image % 65536 ∧
      load16 m (tb + 24) = load16 c.mem (g.base c.ss + (c.esp % 65536 + 2)) ∧
      load16 m (tb + 26) = load16 c.mem (g.base c.ss + c.esp % 65536) ∧
      load16 m (tb + 28) = c.ds % 65536 := by
  have hsplit : [ (Instr.pushf, 1), (.pushSeg .ds, 1), (.pushImm 63, 3), (.popSeg .ds, 1),
        (.popRm (.direct 0x1C), 4), (.popRm (.direct 0x16), 4), (.popRm (.direct 0x1A), 4),
        (.popRm (.direct 0x18), 4), (.movRmReg false (.direct 0x14) .sp, 4),
        (.movRmSeg (.direct 0x12) .ss, 4), (.pushSeg .ds, 1), (.popSeg .ss, 1),
        (.movRegImm .sp 0x12, 3), (.pushSeg .es, 1), (.pusha false, 1),
        (.lss true .sp 0x20, 6), (.popSeg .ds, 1), (.popSeg .es, 1), (.popa true, 2),
        (.retf true, 2) ] =
      [ (Instr.pushf, 1), (.pushSeg .ds, 1), (.pushImm 63, 3), (.popSeg .ds, 1),
        (.popRm (.direct 0x1C), 4), (.popRm (.direct 0x16), 4), (.popRm (.direct 0x1A), 4),
        (.popRm (.direct 0x18), 4), (.movRmReg false (.direct 0x14) .sp, 4),
        (.movRmSeg (.direct 0x12) .ss, 4), (.pushSeg .ds, 1), (.popSeg .ss, 1),
        (.movRegImm .sp 0x12, 3), (.pushSeg .es, 1), (.pusha false, 1) ] ++
      [ (.lss true .sp 0x20, 6), (.popSeg .ds, 1), (.popSeg .es, 1), (.popa true, 2),
        (.retf true, 2) ] := rfl
  rw [hsplit, run_append, exit_tail_mem]
  rcases c with ⟨eax, ecx, edx, ebx, esp, ebp, esi, edi, es, cs, ss, ds, flags, ip, mem⟩
  simp only at *
  refine ⟨?w, ?h1, ?h2⟩
  case h1 =>
    iterate 15
      rw [run_cons]
      simp (disch := omega) only [step, exec, push16, push32, pop16, pop32, Cpu.espDown,
        Cpu.espUp, Cpu.top, Cpu.dsAddr, Cpu.readRm, Cpu.writeRm, Cpu.get16, Cpu.set16,
        Cpu.get32, Cpu.set32, Cpu.getSeg, Cpu.setSeg, pushaOrder, List.reverse_cons,
        List.reverse_nil, List.nil_append, List.cons_append, List.foldl_cons, List.foldl_nil,
        hbigT, hbigG, htb, if_true, if_false, reduceIte, Nat.reducePow, Nat.reduceAdd,
        Nat.reduceSub, mod32_sub, mod32_id, mod16_sub, mod16_id, sub_add_lit, setLow16_wrap,
        setLow16_mod, setLow16_setLow16, load16_mod,
        load16_store16_eq, load16_store16_disj, load16_store32_disj, load32_store32_eq,
        load32_store16_disj, load32_store32_disj, Nat.xor_self, Nat.sub_sub, Nat.reduceMod,
        Nat.zero_add, Nat.add_zero, Nat.sub_zero, reduceCtorEq, Bool.false_eq_true]
    rw [run_nil]
    exact rfl
  case h2 =>
    simp (disch := omega) only [load16_store16_eq, load16_store16_disj, load16_mod,
      Nat.mod_mod, Nat.reduceMod, Nat.add_assoc, Nat.reduceAdd, true_and, and_self, and_true,
      mod16_id]


theorem image_lt (f : Flags) : f.image < 65536 := by
  unfold Flags.image
  have h1 := Bool.toNat_lt f.cf
  have h2 := Bool.toNat_lt f.pf
  have h3 := Bool.toNat_lt f.af
  have h4 := Bool.toNat_lt f.zf
  have h5 := Bool.toNat_lt f.sf
  have h6 := Bool.toNat_lt f.tf
  have h7 := Bool.toNat_lt f.intf
  have h8 := Bool.toNat_lt f.df
  have h9 := Bool.toNat_lt f.ovf
  have h10 := Bool.toNat_lt f.nt
  have h11 := Nat.mod_lt f.iopl (by norm_num : 4 > 0)
  omega

theorem load_logic (f : Flags) (res bits img : Nat) : (f.logic res bits).load img = f.load img := by
  simp [Flags.load, Flags.logic]

theorem fetch_succ (m : Mem) (a n : Nat) : fetch m a (n + 1) = fetch m a n ++ [m (a + n)] := by
  simp [fetch, List.range_succ]

/-- The far call to the exit stub decodes from its five bytes, whatever
follows them. -/
theorem decode_exit_call (x : Nat) :
    decode [0x9A, 0x00, 0x00, 0x37, 0x00, x] = some (exit_call, 5) := by
  simp [decode, decodeOp, exit_call, FROM16_OFS, LDTSEL_L3, TRAMPOLINE_CODE_INDEX,
    INDEX_MULTIPLIER, IS_LDT]

set_option maxHeartbeats 4000000 in
set_option maxRecDepth 100000 in
/-- What the bridge leaves in the context block at `tb`, when the guest at the
`CS:IP` of the block is the far call to the exit stub. -/
theorem bridge_effect (g : Segs) (c : Cpu) (tb : Nat)
    (htb : g.base 63 = tb)
    (hbigH : g.big c.ss = true) (hbigT : g.big 63 = false)
    (hbigG : g.big (load16 c.mem (tb + 18)) = false)
    (hE1 : 38 ≤ c.esp) (hE2 : c.esp < 4294967296)
    (hS : 10 ≤ load16 c.mem (tb + 20))
    (hH : g.base c.ss + c.esp ≤ tb ∨ tb + 62 ≤ g.base c.ss + c.esp - 38)
    (hG : g.base (load16 c.mem (tb + 18)) + load16 c.mem (tb + 20) ≤ tb ∨
      tb + 62 ≤ g.base (load16 c.mem (tb + 18)) + load16 c.mem (tb + 20) - 10)
    (htf : bitOf (load16 c.mem (tb + 22)) 8 = false)
    (hcode : fetch c.mem (g.base (load16 c.mem (tb + 24)) + load16 c.mem (tb + 26)) 5
      = [0x9A, 0x00, 0x00, 0x37, 0x00])
    (hcH : g.base (load16 c.mem (tb + 24)) + load16 c.mem (tb + 26) + 5
        ≤ g.base c.ss + c.esp - 38 ∨
      g.base c.ss + c.esp ≤ g.base (load16 c.mem (tb + 24)) + load16 c.mem (tb + 26))
    (hcT : g.base (load16 c.mem (tb + 24)) + load16 c.mem (tb + 26) + 5 ≤ tb ∨
      tb + 62 ≤ g.base (load16 c.mem (tb + 24)) + load16 c.mem (tb + 26))
    (hcG : g.base (load16 c.mem (tb + 24)) + load16 c.mem (tb + 26) + 5
        ≤ g.base (load16 c.mem (tb + 18)) + load16 c.mem (tb + 20) - 10 ∨
      g.base (load16 c.mem (tb + 18)) + load16 c.mem (tb + 20)
        ≤ g.base (load16 c.mem (tb + 24)) + load16 c.mem (tb + 26)) :
    ∃ c2, bridge g c = some c2 ∧
      load16 c2.mem tb = load16 c.mem tb ∧
      load16 c2.mem (tb + 2) = load16 c.mem (tb + 2) ∧
      load16 c2.mem (tb + 4) = load16 c.mem (tb + 4) ∧
      load16 c2.mem (tb + 6) = 16 ∧
      load16 c2.mem (tb + 8) = load16 c.mem (tb + 8) ∧
      load16 c2.mem (tb + 10) = load16 c.mem (tb + 10) ∧
      load16 c2.mem (tb + 12) = load16 c.mem (tb + 12) ∧
      load16 c2.mem (tb + 14) = load16 c.mem (tb + 14) ∧
      load16 c2.mem (tb + 16) = load16 c.mem (tb + 16) ∧
      load16 c2.mem (tb + 18) = load16 c.mem (tb + 18) ∧
      load16 c2.mem (tb + 20) = load16 c.mem (tb + 20) ∧
      load16 c2.mem (tb + 22) = (c.flags.load (load16 c.mem (tb + 22))).image ∧
      load16 c2.mem (tb + 24) = load16 c.mem (tb + 24) ∧
      load16 c2.mem (tb + 26) = (load16 c.mem (tb + 26) + 5) % 65536 ∧
      load16 c2.mem (tb + 28) = load16 c.mem (tb + 28) := by
  have hS2 := load16_lt c.mem (tb + 20)
  obtain ⟨m1, h1, hframe⟩ := enter_stub_regs g c tb htb hbigH hbigT hbigG hE1 hE2 (by omega) hH
    (by omega)
  have hf : fetch m1 (g.base (load16 c.mem (tb + 24)) + load16 c.mem (tb + 26)) 6
      = [0x9A, 0x00, 0x00, 0x37, 0x00,
          m1 (g.base (load16 c.mem (tb + 24)) + load16 c.mem (tb + 26) + 5)] := by
    rw [fetch_succ, fetch_congr m1 c.mem _ 5, hcode]
    · rfl
    · intro i hi
      exact hframe _ (by omega) (by omega) (by omega)
  have htf2 : ((c.flags.logic 0 16).load (load16 c.mem (tb + 22))).tf = false := by
    simpa [Flags.load] using htf
  unfold bridge runCode
  rw [disassemble_to16, disassemble_from16]
  simp only [Option.map_some']
  rw [h1]
  simp only [hf, decode_exit_call, htf2, Bool.false_eq_true, if_false]
  generalize hc2 : step g _ (exit_call, 5) = c2
  have e_cs : c2.cs = LDTSEL_L3 TRAMPOLINE_CODE_INDEX ∧ c2.ip = FROM16_OFS := by
    rw [← hc2]; exact ⟨rfl, rfl⟩
  simp only [e_cs, and_self, if_true]
  refine ⟨_, rfl, ?_⟩
  have e_ss : c2.ss = load16 c.mem (tb + 18) := by
    rw [← hc2]; simp only [step, exit_call, exec, push16]
  have e_sp : c2.esp % 65536 = load16 c.mem (tb + 20) - 4 := by
    rw [← hc2]
    simp (disch := omega) only [step, exit_call, exec, push16, Cpu.espDown, Cpu.top, hbigG,
      if_false, Bool.false_eq_true, setLow16_mod, setLow16_setLow16, setLow16_wrap, load16_mod,
      mod16_sub, mod16_id, Nat.sub_sub, Nat.reduceAdd]
  have e_mem : c2.mem = store16 (store16 m1
      (g.base (load16 c.mem (tb + 18)) + (load16 c.mem (tb + 20) - 2)) (load16 c.mem (tb + 24)))
      (g.base (load16 c.mem (tb + 18)) + (load16 c.mem (tb + 20) - 4))
      (load16 c.mem (tb + 26) + 5) := by
    rw [← hc2]
    simp (disch := omega) only [step, exit_call, exec, push16, Cpu.espDown, Cpu.top, hbigG,
      if_false, Bool.false_eq_true, setLow16_mod, setLow16_setLow16, setLow16_wrap, load16_mod,
      mod16_sub, mod16_id, Nat.sub_sub, Nat.reduceAdd]
  have e_regs : c2.edi % 65536 = load16 c.mem tb ∧ c2.esi % 65536 = load16 c.mem (tb + 2) ∧
      c2.ebp % 65536 = load16 c.mem (tb + 4) ∧ c2.ebx % 65536 = load16 c.mem (tb + 8) ∧
      c2.edx % 65536 = load16 c.mem (tb + 10) ∧ c2.ecx % 65536 = load16 c.mem (tb + 12) ∧
      c2.eax % 65536 = load16 c.mem (tb + 14) ∧ c2.es = load16 c.mem (tb + 16) ∧
      c2.ds = load16 c.mem (tb + 28) ∧
      c2.flags = c.flags.load (load16 c.mem (tb + 22)) := by
    rw [← hc2]
    simp only [step, exit_call, exec, push16, setLow16_mod, load16_mod, load_logic, and_self]
  obtain ⟨r0, r2, r4, r8, r10, r12, r14, r16, r28, r22⟩ := e_regs
  obtain ⟨m, hm, f0, f2, f4, f6, f8, f10, f12, f14, f16, f18, f20, f22, f24, f26, f28⟩ :=
    exit_stub_fields g c2 tb htb hbigT (by rw [e_ss]; exact hbigG) (by rw [e_sp]; omega)
      (by rw [e_sp]; omega) (by rw [e_ss, e_sp]; omega)
  rw [hm]
  rw [e_ss, e_sp, e_mem] at f24 f26
  rw [e_ss] at f18
  rw [e_sp] at f20
  rw [f0, f2, f4, f6, f8, f10, f12, f14, f16, f18, f20, f22, f24, f26, f28,
    r0, r2, r4, r8, r10, r12, r14, r16, r28, r22]
  simp (disch := omega) only [load16_store16_eq, load16_store16_disj, load16_mod, true_and,
    mod16_id, and_self, Nat.mod_eq_of_lt (image_lt _), and_true]
  omega

/-- Claim C2. In `struct trampoline_data` the eight general registers are at
byte offsets 0x00 to 0x0F in the order DI, SI, BP, SP (dummy), BX, DX, CX, AX,
the order in which `popa` reads them from ascending addresses; ES is at 0x10,
SS at 0x12, SP at 0x14, FLAGS at 0x16, CS at 0x18, IP at 0x1A, DS at 0x1C; and
every byte from offset 0x20 to the end of the structure belongs to
`reserved`. -/
theorem trampoline_data_layout :
    offsetof trampoline_data .r_di = some 0x00 ∧
    offsetof trampoline_data .r_si = some 0x02 ∧
    offsetof trampoline_data .r_bp = some 0x04 ∧
    offsetof trampoline_data .r_dummy_sp = some 0x06 ∧
    offsetof trampoline_data .r_bx = some 0x08 ∧
    offsetof trampoline_data .r_dx = some 0x0A ∧
    offsetof trampoline_data .r_cx = some 0x0C ∧
    offsetof trampoline_data .r_ax = some 0x0E ∧
    offsetof trampoline_data .r_es = some 0x10 ∧
    offsetof trampoline_data .r_ss = some 0x12 ∧
    offsetof trampoline_data .r_sp = some 0x14 ∧
    offsetof trampoline_data .r_flags = some 0x16 ∧
    offsetof trampoline_data .r_cs = some 0x18 ∧
    offsetof trampoline_data .r_ip = some 0x1A ∧
    offsetof trampoline_data .r_ds = some 0x1C ∧
    (pushaOrder.reverse.map slotOf).map (offsetof trampoline_data)
      = [some 0x00, some 0x02, some 0x04, some 0x06, some 0x08, some 0x0A, some 0x0C, some 0x0E] ∧
    (∀ o, o < sizeof trampoline_data → 0x20 ≤ o →
      memberAt trampoline_data o = some .reserved) := by
  decide

/-- Claim C9. After `make_trampoline` with the area below 4 GiB, the area
holds the whole of `from16_trampoline` from offset `FROM16_OFS` and the whole
of `to16_trampoline` from offset `TO16_OFS`, and `context16` is at `DATA_OFS`;
the three ranges are disjoint and inside the 0x200 bytes; the code descriptor
has index 6, base the area and limit 0x100, and every byte of both stubs is
addressable in it; the far target of `enter16` and the far call `main`
patches in at `exit_ofs` name that descriptor and the first byte of the enter
stub and of the exit stub. -/
theorem trampoline_area_layout (area : Nat) (m : Mem) (codebase : Nat) (gm : Mem)
    (h32 : area + 0x200 ≤ 2 ^ 32) :
    fetch (make_trampoline area m).mem (area + FROM16_OFS) from16_trampoline.length
      = from16_trampoline ∧
    fetch (make_trampoline area m).mem (area + TO16_OFS) to16_trampoline.length
      = to16_trampoline ∧
    (make_trampoline area m).context16 = area + DATA_OFS ∧
    FROM16_OFS + from16_trampoline.length ≤ TO16_OFS ∧
    TO16_OFS + to16_trampoline.length ≤ DATA_OFS ∧
    DATA_OFS + sizeof trampoline_data ≤ 0x200 ∧
    (make_trampoline area m).code_desc.entry_number = TRAMPOLINE_CODE_INDEX ∧
    (make_trampoline area m).code_desc.base_addr = area ∧
    (make_trampoline area m).code_desc.limit = 0x100 ∧
    (∀ i, i < from16_trampoline.length →
      (make_trampoline area m).code_desc.addressable (FROM16_OFS + i)) ∧
    (∀ i, i < to16_trampoline.length →
      (make_trampoline area m).code_desc.addressable (TO16_OFS + i)) ∧
    selectorIndex enter16_target.seg = (make_trampoline area m).code_desc.entry_number ∧
    linear (make_trampoline area m).code_desc enter16_target.ofs = area + TO16_OFS ∧
    decode (fetch (main_patches codebase gm) (codebase + exit_ofs) 5)
      = some (.callFar FROM16_OFS (LDTSEL_L3 TRAMPOLINE_CODE_INDEX), 5) ∧
    selectorIndex (LDTSEL_L3 TRAMPOLINE_CODE_INDEX)
      = (make_trampoline area m).code_desc.entry_number ∧
    linear (make_trampoline area m).code_desc FROM16_OFS = area + FROM16_OFS := by
  have hbase : (make_trampoline area m).code_desc.base_addr = area := by
    simp only [make_trampoline]
    omega
  have hpatch : fetch (main_patches codebase gm) (codebase + exit_ofs) 5
      = [0x9A, 0x00, 0x00, 0x37, 0x00] := by
    simp [fetch, List.range, List.range.loop, main_patches, store16, store8, exit_ofs,
      FROM16_OFS, LDTSEL_L3, TRAMPOLINE_CODE_INDEX, INDEX_MULTIPLIER, IS_LDT]
  refine ⟨?_, ?_, rfl, by decide, by decide, by decide, rfl, hbase, rfl, ?_, ?_, rfl, ?_, ?_,
    rfl, ?_⟩
  · simp only [make_trampoline]
    rw [fetch_memcpy_disjoint _ _ _ _ _ (by simp [FROM16_OFS, TO16_OFS, from16_trampoline])]
    exact fetch_memcpy_same _ _ _
  · simp only [make_trampoline]
    exact fetch_memcpy_same _ _ _
  · intro i hi
    have : from16_trampoline.length = 49 := rfl
    simp only [make_trampoline, user_desc.addressable, user_desc.lastOffset, FROM16_OFS,
      if_true]
    omega
  · intro i hi
    have : to16_trampoline.length = 45 := rfl
    simp only [make_trampoline, user_desc.addressable, user_desc.lastOffset, TO16_OFS, if_true]
    omega
  · rw [linear, hbase]; rfl
  · rw [hpatch]; decide
  · rw [linear, hbase]

/-- Claim C9 with the area at 0x40000000. -/
theorem trampoline_area_layout_witness :
    (0x40000000 + 0x200 ≤ 2 ^ 32) ∧
    fetch (make_trampoline 0x40000000 (fun _ => 0)).mem (0x40000000 + TO16_OFS)
      to16_trampoline.length = to16_trampoline ∧
    linear (make_trampoline 0x40000000 (fun _ => 0)).code_desc enter16_target.ofs
      = 0x40000000 + TO16_OFS :=
  have h := trampoline_area_layout 0x40000000 (fun _ => 0) 0x40010000 (fun _ => 0) (by decide)
  ⟨by decide, h.2.1, h.2.2.2.2.2.2.2.2.2.2.2.2.1⟩

/-- Claim C10 fails on the code. The three bytes at 0x6A81 are a near call to
0x0030, and the 19 bytes at 0x30 are `screen_clear_patch`; but the sequence
of the comments assembles to other bytes: byte 11 would be 0xB9
(`mov cx, imm16`) where the patch has 0xB1 (`mov cl, imm8`). The patch
disassembles to `mov cl, 0`, `or bl, dh` and a single `stosw` in the place of
`mov cx, 0x800` and `rep stosw`, and run from the call it stores one word,
0x0720, in the screen buffer, then returns to 0x6A84 with CH unchanged. -/
theorem screen_clear_patch_moves_cl_not_cx (codebase : Nat) (gm : Mem) :
    fetch (main_patches codebase gm) (codebase + 0x30) 19 = screen_clear_patch ∧
    fetch (main_patches codebase gm) (codebase + 0x6A81) 3 = screen_clear_call ∧
    decode screen_clear_call = some (.callNear 0x95AC, 3) ∧
    (0x6A84 + 0x95AC) % 2 ^ 16 = 0x0030 ∧
    assemble screen_clear_comments
      = [0x06, 0x57, 0x8E, 0x06, 0x45, 0x75, 0x33, 0xFF, 0xB8, 0x20, 0x07, 0xB9, 0x00, 0x08,
         0xF3, 0xAB, 0x5F, 0x07, 0xC3] ∧
    assemble screen_clear_comments ≠ screen_clear_patch ∧
    screen_clear_patch.get? 11 = some 0xB1 ∧
    disassemble screen_clear_patch.length screen_clear_patch = some
      [ (.pushSeg .es, 1), (.pushReg .di, 1), (.movSegRm .es (.direct 0x7545), 4),
        (.xorRegRm .di (.reg .di), 2), (.movRegImm .ax 0x720, 3), (.movReg8Imm .cl 0, 2),
        (.orReg8Reg8 .bl .dh, 2), (.stosw false, 1), (.popReg .di, 1), (.popSeg .es, 1),
        (.retn, 1) ] ∧
    (runCode tables_of_main (screen_clear_call ++ screen_clear_patch) guest_at_screen_call).map
        (fun c => (c.ip, c.get16 .cx, fetch c.mem 0x40020000 4))
      = some (0x6A84, 0x1200, [0x20, 0x07, 0x00, 0x00]) := by
  refine ⟨?_, ?_, by decide, by decide, by decide, by decide, by decide, by decide, ?_⟩
  · simp only [main_patches, exit_ofs]
    simp (disch := first | omega | (simp only [List.length_cons, List.length_nil, screen_clear_call]; omega)) only
      [fetch_store16_disjoint, fetch_store8_disjoint, fetch_memcpy_disjoint, fetch_memset_disjoint]
    exact fetch_memcpy_same _ _ _
  · simp only [main_patches, exit_ofs]
    simp (disch := first | omega | (simp only [List.length_cons, List.length_nil, screen_clear_call]; omega)) only
      [fetch_store16_disjoint, fetch_store8_disjoint, fetch_memcpy_disjoint, fetch_memset_disjoint]
    exact fetch_memcpy_same _ _ _
  · decide!
